import Mathlib

/-!
Verification development for the Sentinel hub VPN module: node registry,
session/subscription lifecycle, escrow accounting, and end-block expiry
sweep, together with the REST init-session handler.

The lifecycle core (NodeRegistry, SessionManager, SubscriptionManager,
EscrowLedger, EndBlockProcessor) is embedded as a deterministic state
machine over explicit list-backed stores; the REST handler is embedded as
a pure function over its parsed request and its collaborator functions.
-/

namespace Hub

/-- Status of a registered node: Active or Inactive (after deregistration). -/
inductive NodeStatus
  | active
  | inactive
deriving DecidableEq, Repr

/-- Lifecycle status of a session or subscription: Active, then terminally Ended. -/
inductive LifeStatus
  | active
  | ended
deriving DecidableEq, Repr

/-- Modelled from the spec: Node record of the NodeRegistry.
{ID, Owner, PricePerUnitBandwidth (non-negative), Status}. -/
structure Node where
  id : Nat
  owner : Nat
  price : Nat
  status : NodeStatus
deriving DecidableEq, Repr

/-- Modelled from the spec: Session record of the SessionManager.
{ID, NodeID, Subscriber, LockedAmount, BandwidthConsumed, Status, Deadline}. -/
structure Session where
  id : Nat
  nodeID : Nat
  subscriber : Nat
  lockedAmount : Nat
  bandwidthConsumed : Nat
  status : LifeStatus
  deadline : Nat
deriving DecidableEq, Repr

/-- Modelled from the spec: Subscription record of the SubscriptionManager.
{ID, NodeID, Subscriber, Deposit, BandwidthQuota, BandwidthUsed, Status, Expiry}. -/
structure Subscription where
  id : Nat
  nodeID : Nat
  subscriber : Nat
  deposit : Nat
  bandwidthQuota : Nat
  bandwidthUsed : Nat
  status : LifeStatus
  expiry : Nat
deriving DecidableEq, Repr

/-- Modelled from the spec: the typed error kinds of the error-handling design. -/
inductive Err
  | invalidParameter
  | notFound
  | unauthorized
  | preconditionFailed
  | insufficientFunds
  | invariantViolation
deriving DecidableEq, Repr

/-- Lookup by key in a list-backed store (first record whose key equals `i`). -/
def lookupId (k : α → Nat) : List α → Nat → Option α
  | [], _ => none
  | x :: xs, i => if k x = i then some x else lookupId k xs i

/-- Update every record whose key equals `i` by `f` (with unique keys, the one record). -/
def updateId (k : α → Nat) (f : α → α) : List α → Nat → List α
  | [], _ => []
  | x :: xs, i => (if k x = i then f x else x) :: updateId k f xs i

/-- Sum of a numeric projection over a list-backed store. -/
def sumBy (g : α → Nat) : List α → Nat
  | [] => 0
  | x :: xs => g x + sumBy g xs

/-- Modelled from the spec: the module state. List-backed KV stores for
nodes, sessions and subscriptions (records appended with a monotonic ID
counter, hence ascending-ID iteration order), the bank's spendable
balances as an association list, the module escrow account's balance,
the current block height and the configured maximum durations. -/
structure State where
  nodes : List Node
  sessions : List Session
  subscriptions : List Subscription
  balances : List (Nat × Nat)
  escrowBalance : Nat
  nextNodeID : Nat
  nextSessionID : Nat
  nextSubscriptionID : Nat
  height : Nat
  maxSessionDuration : Nat
  maxSubscriptionDuration : Nat
deriving DecidableEq, Repr

/-- Spendable balance of an account in the bank collaborator (0 when absent). -/
def getBal : List (Nat × Nat) → Nat → Nat
  | [], _ => 0
  | (b, v) :: xs, a => if b = a then v else getBal xs a

/-- Credit an account's spendable balance. -/
def addBal : List (Nat × Nat) → Nat → Nat → List (Nat × Nat)
  | [], a, amt => [(a, amt)]
  | (b, v) :: xs, a, amt => if b = a then (b, v + amt) :: xs else (b, v) :: addBal xs a amt

/-- Debit an account's spendable balance (callers guard by `getBal`). -/
def subBal : List (Nat × Nat) → Nat → Nat → List (Nat × Nat)
  | [], _, _ => []
  | (b, v) :: xs, a, amt => if b = a then (b, v - amt) :: xs else (b, v) :: subBal xs a amt

/-- Modelled from the spec: EscrowLedger.Lock. Fails with InsufficientFunds
when the bank reports the account balance below `amount`; otherwise moves
`amount` from the account's spendable balance into the module's
escrow-holding account. -/
def lock (st : State) (account amount : Nat) : Except Err State :=
  if getBal st.balances account < amount then
    .error .insufficientFunds
  else
    .ok { st with
      balances := subBal st.balances account amount,
      escrowBalance := st.escrowBalance + amount }

/-- Modelled from the spec: EscrowLedger.Settle. Transfers `owed` from
escrow to the node owner, refunds the remainder `handleAmount - owed` to
the original locker, and releases the handle. Fails with
InvariantViolation when `owed > handleAmount`. -/
def settle (st : State) (locker nodeOwner handleAmount owed : Nat) : Except Err State :=
  if handleAmount < owed then
    .error .invariantViolation
  else
    .ok { st with
      escrowBalance := st.escrowBalance - handleAmount,
      balances := addBal (addBal st.balances nodeOwner owed) locker (handleAmount - owed) }

/-- Modelled from the spec: SessionManager settlement formula,
`amountOwed = min(LockedAmount, BandwidthConsumed * node.PricePerUnitBandwidth)`. -/
def sessionOwed (s : Session) (n : Node) : Nat :=
  min s.lockedAmount (s.bandwidthConsumed * n.price)

/-- Modelled from the spec: SubscriptionManager settlement formula,
`amountOwed = min(Deposit, BandwidthUsed * node.PricePerUnitBandwidth)`. -/
def subscriptionOwed (b : Subscription) (n : Node) : Nat :=
  min b.deposit (b.bandwidthUsed * n.price)

/-- Modelled from the spec: NodeRegistry.RegisterNode. Fails with
InvalidParameter when the price is non-positive; otherwise persists a
fresh Node{Status=Active} under the monotonic ID counter. -/
def registerNode (st : State) (owner price : Nat) : Except Err State :=
  if price = 0 then .error .invalidParameter
  else
    .ok { st with
      nodes := st.nodes ++ [⟨st.nextNodeID, owner, price, .active⟩],
      nextNodeID := st.nextNodeID + 1 }

/-- Modelled from the spec: NodeRegistry.UpdateNodeInfo. Fails with
NotFound for an unknown node and Unauthorized when the caller is not the
owner; otherwise mutates the price in place. -/
def updateNodeInfo (st : State) (nodeID owner newPrice : Nat) : Except Err State :=
  match lookupId Node.id st.nodes nodeID with
  | none => .error .notFound
  | some n =>
    if owner ≠ n.owner then .error .unauthorized
    else
      .ok { st with
        nodes := updateId Node.id (fun t => { t with price := newPrice }) st.nodes nodeID }

/-- Does any Active session or Active subscription still reference `nodeID`? -/
def hasActiveRef (st : State) (nodeID : Nat) : Bool :=
  st.sessions.any (fun s => s.status == .active && s.nodeID == nodeID) ||
    st.subscriptions.any (fun b => b.status == .active && b.nodeID == nodeID)

/-- Modelled from the spec: NodeRegistry.DeregisterNode. Fails with
NotFound / Unauthorized; fails with PreconditionFailed while any Active
session or subscription still references the node; otherwise sets
Status=Inactive, retaining the record. -/
def deregisterNode (st : State) (nodeID owner : Nat) : Except Err State :=
  match lookupId Node.id st.nodes nodeID with
  | none => .error .notFound
  | some n =>
    if owner ≠ n.owner then .error .unauthorized
    else if hasActiveRef st nodeID then .error .preconditionFailed
    else
      .ok { st with
        nodes := updateId Node.id (fun t => { t with status := .inactive }) st.nodes nodeID }

/-- Modelled from the spec: SessionManager.InitSession. Fails with
NotFound when the node is inactive or unknown and InvalidParameter when
the amount to lock is non-positive; locks the amount via the
EscrowLedger and creates Session{Status=Active, BandwidthConsumed=0,
Deadline = current height + configured max session duration}. -/
def initSession (st : State) (subscriber nodeID amountToLock : Nat) : Except Err State :=
  match lookupId Node.id st.nodes nodeID with
  | none => .error .notFound
  | some n =>
    if n.status ≠ .active then .error .notFound
    else if amountToLock = 0 then .error .invalidParameter
    else
      match lock st subscriber amountToLock with
      | .error e => .error e
      | .ok st1 =>
        .ok { st1 with
          sessions := st1.sessions ++
            [⟨st.nextSessionID, nodeID, subscriber, amountToLock, 0, .active,
              st.height + st.maxSessionDuration⟩],
          nextSessionID := st.nextSessionID + 1 }

/-- Modelled from the spec: SessionManager.UpdateSessionInfo. Fails with
NotFound / PreconditionFailed when the session is unknown or not Active,
and with InvalidParameter when the reported bandwidth decreases; moves
no funds. -/
def updateSessionInfo (st : State) (sessionID bandwidthConsumed : Nat) : Except Err State :=
  match lookupId Session.id st.sessions sessionID with
  | none => .error .notFound
  | some s =>
    if s.status ≠ .active then .error .preconditionFailed
    else if bandwidthConsumed < s.bandwidthConsumed then .error .invalidParameter
    else
      .ok { st with
        sessions := updateId Session.id
          (fun t => { t with bandwidthConsumed := bandwidthConsumed }) st.sessions sessionID }

/-- Modelled from the spec: SessionManager.EndSession. Fails with
NotFound / PreconditionFailed when not Active and Unauthorized unless
the caller is the subscriber or the node owner; computes the owed
amount, settles through the EscrowLedger, and transitions to Ended. -/
def endSession (st : State) (sessionID caller : Nat) : Except Err State :=
  match lookupId Session.id st.sessions sessionID with
  | none => .error .notFound
  | some s =>
    if s.status ≠ .active then .error .preconditionFailed
    else
      match lookupId Node.id st.nodes s.nodeID with
      | none => .error .notFound
      | some n =>
        if caller ≠ s.subscriber ∧ caller ≠ n.owner then .error .unauthorized
        else
          match settle st s.subscriber n.owner s.lockedAmount (sessionOwed s n) with
          | .error e => .error e
          | .ok st1 =>
            .ok { st1 with
              sessions := updateId Session.id (fun t => { t with status := .ended })
                st1.sessions sessionID }

/-- Modelled from the spec: SubscriptionManager.StartSubscription. Locks
the deposit and derives `BandwidthQuota = Deposit / PricePerUnitBandwidth`
by truncating integer division. -/
def startSubscription (st : State) (subscriber nodeID deposit : Nat) : Except Err State :=
  match lookupId Node.id st.nodes nodeID with
  | none => .error .notFound
  | some n =>
    if n.status ≠ .active then .error .notFound
    else if deposit = 0 then .error .invalidParameter
    else
      match lock st subscriber deposit with
      | .error e => .error e
      | .ok st1 =>
        .ok { st1 with
          subscriptions := st1.subscriptions ++
            [⟨st.nextSubscriptionID, nodeID, subscriber, deposit, deposit / n.price, 0, .active,
              st.height + st.maxSubscriptionDuration⟩],
          nextSubscriptionID := st.nextSubscriptionID + 1 }

/-- Modelled from the spec: subscription usage update, following the same
monotonic-non-decreasing rule as UpdateSessionInfo. -/
def updateSubscriptionInfo (st : State) (subscriptionID bandwidthUsed : Nat) : Except Err State :=
  match lookupId Subscription.id st.subscriptions subscriptionID with
  | none => .error .notFound
  | some b =>
    if b.status ≠ .active then .error .preconditionFailed
    else if bandwidthUsed < b.bandwidthUsed then .error .invalidParameter
    else
      .ok { st with
        subscriptions := updateId Subscription.id
          (fun t => { t with bandwidthUsed := bandwidthUsed }) st.subscriptions subscriptionID }

/-- Modelled from the spec: SubscriptionManager.EndSubscription, settling
`min(Deposit, BandwidthUsed * price)` identically to sessions. -/
def endSubscription (st : State) (subscriptionID caller : Nat) : Except Err State :=
  match lookupId Subscription.id st.subscriptions subscriptionID with
  | none => .error .notFound
  | some b =>
    if b.status ≠ .active then .error .preconditionFailed
    else
      match lookupId Node.id st.nodes b.nodeID with
      | none => .error .notFound
      | some n =>
        if caller ≠ b.subscriber ∧ caller ≠ n.owner then .error .unauthorized
        else
          match settle st b.subscriber n.owner b.deposit (subscriptionOwed b n) with
          | .error e => .error e
          | .ok st1 =>
            .ok { st1 with
              subscriptions := updateId Subscription.id (fun t => { t with status := .ended })
                st1.subscriptions subscriptionID }

/-- Modelled from the spec: system-initiated force-end of one session by
the EndBlockProcessor, applied when the session is Active and past its
Deadline, using the normal settlement formula. -/
def forceEndSession (st : State) (sessionID : Nat) : State :=
  match lookupId Session.id st.sessions sessionID with
  | none => st
  | some s =>
    if s.status = .active ∧ s.deadline < st.height then
      match lookupId Node.id st.nodes s.nodeID with
      | none => st
      | some n =>
        match settle st s.subscriber n.owner s.lockedAmount (sessionOwed s n) with
        | .error _ => st
        | .ok st1 =>
          { st1 with
            sessions := updateId Session.id (fun t => { t with status := .ended })
              st1.sessions sessionID }
    else st

/-- Modelled from the spec: system-initiated force-end of one subscription
by the EndBlockProcessor, applied when the subscription is Active and
past its Expiry, using the normal settlement formula. -/
def forceEndSubscription (st : State) (subscriptionID : Nat) : State :=
  match lookupId Subscription.id st.subscriptions subscriptionID with
  | none => st
  | some b =>
    if b.status = .active ∧ b.expiry < st.height then
      match lookupId Node.id st.nodes b.nodeID with
      | none => st
      | some n =>
        match settle st b.subscriber n.owner b.deposit (subscriptionOwed b n) with
        | .error _ => st
        | .ok st1 =>
          { st1 with
            subscriptions := updateId Subscription.id (fun t => { t with status := .ended })
              st1.subscriptions subscriptionID }
    else st

/-- IDs the end-block sweep visits over the session store, in store order
(ascending by ID for well-formed states). -/
def sessionSweepIds (st : State) : List Nat :=
  st.sessions.map Session.id

/-- IDs the end-block sweep visits over the subscription store, in store
order (ascending by ID for well-formed states). -/
def subscriptionSweepIds (st : State) : List Nat :=
  st.subscriptions.map Subscription.id

/-- Modelled from the spec: EndBlockProcessor. Deterministic sweep run
once per block after all transactions: iterate all sessions and
subscriptions in ascending-ID store order, force-end any Active item
past its Deadline/Expiry, then advance to the next block height. -/
def endBlockStep (st : State) : State :=
  let st1 := (sessionSweepIds st).foldl forceEndSession st
  let st2 := (subscriptionSweepIds st1).foldl forceEndSubscription st1
  { st2 with height := st2.height + 1 }

/-- Modelled from the spec: the closed sum type of lifecycle operations
plus the end-block sweep, matched exhaustively at the dispatch boundary. -/
inductive Op
  | registerNode (owner price : Nat)
  | updateNodeInfo (nodeID owner newPrice : Nat)
  | deregisterNode (nodeID owner : Nat)
  | initSession (subscriber nodeID amountToLock : Nat)
  | updateSessionInfo (sessionID bandwidthConsumed : Nat)
  | endSession (sessionID caller : Nat)
  | startSubscription (subscriber nodeID deposit : Nat)
  | updateSubscriptionInfo (subscriptionID bandwidthUsed : Nat)
  | endSubscription (subscriptionID caller : Nat)
  | endBlock
deriving DecidableEq, Repr

/-- Dispatch one operation; a typed error carries no partial state. -/
def step (st : State) : Op → Except Err State
  | .registerNode owner price => registerNode st owner price
  | .updateNodeInfo nodeID owner newPrice => updateNodeInfo st nodeID owner newPrice
  | .deregisterNode nodeID owner => deregisterNode st nodeID owner
  | .initSession subscriber nodeID amountToLock => initSession st subscriber nodeID amountToLock
  | .updateSessionInfo sessionID bw => updateSessionInfo st sessionID bw
  | .endSession sessionID caller => endSession st sessionID caller
  | .startSubscription subscriber nodeID deposit => startSubscription st subscriber nodeID deposit
  | .updateSubscriptionInfo subscriptionID bw => updateSubscriptionInfo st subscriptionID bw
  | .endSubscription subscriptionID caller => endSubscription st subscriptionID caller
  | .endBlock => .ok (endBlockStep st)

/-- Apply one operation: on a typed error all writes and fund movements
of the operation are discarded as a unit and the prior state stands. -/
def applyOp (st : State) (op : Op) : State :=
  match step st op with
  | .ok st1 => st1
  | .error _ => st

/-- Replay an ordered sequence of operations (transactions in delivery
order interleaved with end-block sweeps). -/
def run (st : State) : List Op → State
  | [] => st
  | op :: ops => run (applyOp st op) ops

/-- Modelled from the spec: genesis state with given initial bank
balances and configured maximum durations: no nodes, sessions or
subscriptions, and an empty escrow account. -/
def genesisState (balances : List (Nat × Nat)) (maxSes maxSub : Nat) : State :=
  ⟨[], [], [], balances, 0, 0, 0, 0, 0, maxSes, maxSub⟩

/-- Escrowed contribution of a session: its LockedAmount while Active. -/
def sessionLock (s : Session) : Nat :=
  if s.status = .active then s.lockedAmount else 0

/-- Escrowed contribution of a subscription: its Deposit while Active. -/
def subscriptionLock (b : Subscription) : Nat :=
  if b.status = .active then b.deposit else 0

/-- Primary auditable invariant: the escrow account balance equals the sum
of LockedAmount over Active sessions plus the sum of Deposit over Active
subscriptions. -/
def escrowInvariant (st : State) : Prop :=
  st.escrowBalance = sumBy sessionLock st.sessions + sumBy subscriptionLock st.subscriptions

instance (st : State) : Decidable (escrowInvariant st) := by
  unfold escrowInvariant; infer_instance

/-- Well-formedness maintained by the state machine: each store's IDs are
strictly ascending in store order, every ID is below its monotonic
counter, and every session/subscription references an existing node. -/
def WF (st : State) : Prop :=
  (st.nodes.map Node.id).Pairwise (· < ·) ∧
    (∀ n ∈ st.nodes, n.id < st.nextNodeID) ∧
    (st.sessions.map Session.id).Pairwise (· < ·) ∧
    (∀ s ∈ st.sessions, s.id < st.nextSessionID) ∧
    (st.subscriptions.map Subscription.id).Pairwise (· < ·) ∧
    (∀ b ∈ st.subscriptions, b.id < st.nextSubscriptionID) ∧
    (∀ s ∈ st.sessions, (lookupId Node.id st.nodes s.nodeID).isSome) ∧
    (∀ b ∈ st.subscriptions, (lookupId Node.id st.nodes b.nodeID).isSome)

instance (st : State) : Decidable (WF st) := by
  unfold WF; infer_instance

/-- Bech32 account address, as produced by AccAddressFromBech32 (opaque here). -/
structure AccAddress where
  addr : String
deriving DecidableEq, Repr

/-- Coin value, as produced by ParseCoin (opaque here). -/
structure Coin where
  denom : String
  amount : Nat
deriving DecidableEq, Repr

/-- Identifier wrapper of sdkTypes.NewID. -/
structure ID where
  value : String
deriving DecidableEq, Repr

/-- Constructor mirroring sdkTypes.NewID. -/
def NewID (s : String) : ID :=
  ⟨s⟩

/-- Base request part of the REST payload; only the From field is read by
the handler. -/
structure BaseReq where
  fromField : String
deriving DecidableEq, Repr

/-- Body of the init-session REST request (msgInitSession in
src/x/vpn/client/rest/init_session.go): base_req, amount_to_lock, node_id. -/
structure MsgInitSessionReq where
  baseReq : BaseReq
  amountToLock : String
  nodeID : String
deriving DecidableEq, Repr

/-- Message built by vpn.NewMsgInitSession(fromAddress, nodeID, amountToLock). -/
structure MsgInitSession where
  fromAddress : AccAddress
  nodeID : ID
  amountToLock : Coin
deriving DecidableEq, Repr

/-- Collaborator functions of the REST handler (cosmos-sdk rest/codec/types
helpers), abstracted: ReadRESTReq either yields the decoded request or has
already written an error response (none); Sanitize and ValidateBasic act on
the base request; the two parsers and the message validator may fail. -/
structure RestEnv where
  readRESTReq : Option MsgInitSessionReq
  sanitize : BaseReq → BaseReq
  validateBasic : BaseReq → Bool
  accAddressFromBech32 : String → Except String AccAddress
  parseCoin : String → Except String Coin
  msgValidateBasic : MsgInitSession → Option String

/-- What the handler wrote to the ResponseWriter: the error written by
ReadRESTReq itself, the response written by BaseReq.ValidateBasic itself,
an explicit rest.WriteErrorResponse with its HTTP status, or the generated
transaction of clientRest.WriteGenerateStdTxResponse. -/
inductive RestResponse
  | readError
  | baseReqError
  | errorResponse (status : Nat) (msg : String)
  | generateTx (baseReq : BaseReq) (msg : MsgInitSession)
deriving DecidableEq, Repr

/-- Embedding of initSessionHandlerFunc (src/x/vpn/client/rest/init_session.go):
read and decode the request, sanitize and validate the base request, parse
the from address as bech32, parse the amount as a coin, build the message,
run its ValidateBasic, and only then write the generated transaction;
every parse or validation failure writes an error response (HTTP 400 for
the address, coin and message failures) and returns. -/
def initSessionHandlerFunc (env : RestEnv) : RestResponse :=
  match env.readRESTReq with
  | none => .readError
  | some req0 =>
    if env.validateBasic (env.sanitize req0.baseReq) = false then .baseReqError
    else
      match env.accAddressFromBech32 (env.sanitize req0.baseReq).fromField with
      | .error e => .errorResponse 400 e
      | .ok fromAddress =>
        match env.parseCoin req0.amountToLock with
        | .error e => .errorResponse 400 e
        | .ok amountToLock =>
          match env.msgValidateBasic ⟨fromAddress, NewID req0.nodeID, amountToLock⟩ with
          | some e => .errorResponse 400 e
          | none =>
            .generateTx (env.sanitize req0.baseReq) ⟨fromAddress, NewID req0.nodeID, amountToLock⟩

theorem lookupId_k {k : α → Nat} {xs : List α} {i : Nat} {x : α}
    (h : lookupId k xs i = some x) : k x = i := by
  induction xs with
  | nil => simp [lookupId] at h
  | cons y ys ih =>
    simp only [lookupId] at h
    split at h
    · cases h; assumption
    · exact ih h

theorem lookupId_mem {k : α → Nat} {xs : List α} {i : Nat} {x : α}
    (h : lookupId k xs i = some x) : x ∈ xs := by
  induction xs with
  | nil => simp [lookupId] at h
  | cons y ys ih =>
    simp only [lookupId] at h
    split at h
    · cases h; exact List.mem_cons_self _ _
    · exact List.mem_cons_of_mem _ (ih h)

theorem updateId_of_not_mem {k : α → Nat} {f : α → α} {xs : List α} {i : Nat}
    (h : ∀ x ∈ xs, k x ≠ i) : updateId k f xs i = xs := by
  induction xs with
  | nil => rfl
  | cons y ys ih =>
    simp only [updateId]
    rw [if_neg (h y (List.mem_cons_self _ _)), ih (fun x hx => h x (List.mem_cons_of_mem _ hx))]

theorem map_k_updateId {k : α → Nat} {f : α → α} (hf : ∀ x, k (f x) = k x)
    (xs : List α) (i : Nat) : (updateId k f xs i).map k = xs.map k := by
  induction xs with
  | nil => rfl
  | cons y ys ih =>
    simp only [updateId, List.map_cons, ih]
    split
    · rw [hf]
    · rfl

theorem lookupId_updateId_ne {k : α → Nat} {f : α → α} (hf : ∀ x, k (f x) = k x)
    (xs : List α) {i j : Nat} (hij : j ≠ i) :
    lookupId k (updateId k f xs i) j = lookupId k xs j := by
  induction xs with
  | nil => rfl
  | cons y ys ih =>
    simp only [updateId, lookupId]
    by_cases hy : k y = i
    · rw [if_pos hy, if_neg (by rw [hf]; rw [hy]; exact fun h => hij h.symm),
        if_neg (by rw [hy]; exact fun h => hij h.symm), ih]
    · rw [if_neg hy, ih]

theorem lookupId_updateId_self {k : α → Nat} {f : α → α} (hf : ∀ x, k (f x) = k x)
    (xs : List α) (i : Nat) :
    lookupId k (updateId k f xs i) i = (lookupId k xs i).map f := by
  induction xs with
  | nil => rfl
  | cons y ys ih =>
    by_cases hy : k y = i
    · simp [updateId, lookupId, hy, hf]
    · simp [updateId, lookupId, hy, ih]

theorem mem_updateId {k : α → Nat} {f : α → α} {xs : List α} {i : Nat} {y : α}
    (h : y ∈ updateId k f xs i) :
    (y ∈ xs ∧ k y ≠ i) ∨ (∃ x, x ∈ xs ∧ k x = i ∧ y = f x) := by
  induction xs with
  | nil => simp [updateId] at h
  | cons z zs ih =>
    simp only [updateId, List.mem_cons] at h
    rcases h with h | h
    · by_cases hz : k z = i
      · right; exact ⟨z, List.mem_cons_self _ _, hz, by rw [h, if_pos hz]⟩
      · left
        rw [if_neg hz] at h
        exact ⟨by rw [h]; exact List.mem_cons_self _ _, by rw [h]; exact hz⟩
    · rcases ih h with ⟨h1, h2⟩ | ⟨x, hx1, hx2, hx3⟩
      · exact Or.inl ⟨List.mem_cons_of_mem _ h1, h2⟩
      · exact Or.inr ⟨x, List.mem_cons_of_mem _ hx1, hx2, hx3⟩

theorem sumBy_updateId {k : α → Nat} {g : α → Nat} {f : α → α} {xs : List α} {i : Nat} {x : α}
    (huniq : (xs.map k).Pairwise (· ≠ ·)) (hx : lookupId k xs i = some x) :
    sumBy g (updateId k f xs i) + g x = sumBy g xs + g (f x) := by
  induction xs with
  | nil => simp [lookupId] at hx
  | cons y ys ih =>
    simp only [List.map_cons, List.pairwise_cons] at huniq
    simp only [lookupId, updateId] at hx ⊢
    by_cases hy : k y = i
    · rw [if_pos hy] at hx ⊢
      cases hx
      have hnone : ∀ z ∈ ys, k z ≠ i := by
        intro z hz
        rw [← hy]
        exact fun h => huniq.1 (k z) (List.mem_map_of_mem k hz) h.symm
      rw [updateId_of_not_mem hnone]
      simp only [sumBy]
      omega
    · rw [if_neg hy] at hx ⊢
      have := ih huniq.2 hx
      simp only [sumBy]
      omega

theorem mem_sumBy_le {g : α → Nat} {xs : List α} {x : α} (h : x ∈ xs) :
    g x ≤ sumBy g xs := by
  induction xs with
  | nil => simp at h
  | cons y ys ih =>
    rcases List.mem_cons.1 h with h | h
    · rw [h]; simp only [sumBy]; omega
    · have := ih h; simp only [sumBy]; omega

theorem sumBy_append_one {g : α → Nat} (xs : List α) (a : α) :
    sumBy g (xs ++ [a]) = sumBy g xs + g a := by
  induction xs with
  | nil => simp [sumBy]
  | cons y ys ih =>
    show g y + sumBy g (ys ++ [a]) = g y + sumBy g ys + g a
    rw [ih]
    omega

theorem lookupId_append_of_some {k : α → Nat} {xs : List α} {i : Nat} {x : α} (a : α)
    (h : lookupId k xs i = some x) : lookupId k (xs ++ [a]) i = some x := by
  induction xs with
  | nil => simp [lookupId] at h
  | cons y ys ih =>
    simp only [lookupId, List.cons_append] at h ⊢
    split at h
    · rw [if_pos (by assumption)]; exact h
    · rw [if_neg (by assumption)]; exact ih h

theorem lookupId_append_self {k : α → Nat} {xs : List α} (a : α)
    (h : ∀ x ∈ xs, k x ≠ k a) : lookupId k (xs ++ [a]) (k a) = some a := by
  induction xs with
  | nil => simp [lookupId]
  | cons y ys ih =>
    show (if k y = k a then some y else lookupId k (ys ++ [a]) (k a)) = some a
    rw [if_neg (h y (List.mem_cons_self _ _))]
    exact ih (fun x hx => h x (List.mem_cons_of_mem _ hx))

theorem pairwise_lt_append_one {xs : List Nat} {k : Nat}
    (hs : xs.Pairwise (· < ·)) (hk : ∀ x ∈ xs, x < k) :
    (xs ++ [k]).Pairwise (· < ·) := by
  induction xs with
  | nil => simp
  | cons y ys ih =>
    rcases List.pairwise_cons.1 hs with ⟨h1, h2⟩
    refine List.pairwise_cons.2 ⟨?_, ih h2 (fun x hx => hk x (List.mem_cons_of_mem _ hx))⟩
    intro x hx
    rcases List.mem_append.1 hx with h | h
    · exact h1 x h
    · rw [List.mem_singleton.1 h]; exact hk y (List.mem_cons_self _ _)

theorem pairwise_lt_ne {xs : List Nat} (h : xs.Pairwise (· < ·)) :
    xs.Pairwise (· ≠ ·) :=
  h.imp Nat.ne_of_lt

theorem lookupId_updateId_isSome {k : α → Nat} {f : α → α} (hf : ∀ x, k (f x) = k x)
    (xs : List α) (i j : Nat) :
    (lookupId k (updateId k f xs i) j).isSome = (lookupId k xs j).isSome := by
  by_cases hij : j = i
  · subst hij
    rw [lookupId_updateId_self hf]
    cases lookupId k xs j <;> rfl
  · rw [lookupId_updateId_ne hf _ hij]

theorem foldl_preserve {P : State → Prop} {f : State → Nat → State}
    (hf : ∀ st i, P st → P (f st i)) :
    ∀ (l : List Nat) (st : State), P st → P (l.foldl f st)
  | [], _, h => h
  | i :: is, st, h => foldl_preserve hf is (f st i) (hf st i h)

theorem WF_congr {st st' : State} (hn : st'.nodes = st.nodes) (hs : st'.sessions = st.sessions)
    (hb : st'.subscriptions = st.subscriptions) (h1 : st'.nextNodeID = st.nextNodeID)
    (h2 : st'.nextSessionID = st.nextSessionID)
    (h3 : st'.nextSubscriptionID = st.nextSubscriptionID) (hWF : WF st) : WF st' := by
  unfold WF at hWF ⊢
  rw [hn, hs, hb, h1, h2, h3]
  exact hWF

theorem WF_nodes_updateId {st : State} {f : Node → Node} (hf : ∀ n, (f n).id = n.id) (i : Nat)
    (hWF : WF st) : WF { st with nodes := updateId Node.id f st.nodes i } := by
  obtain ⟨hN1, hN2, hS1, hS2, hB1, hB2, hR1, hR2⟩ := hWF
  refine ⟨?_, ?_, hS1, hS2, hB1, hB2, ?_, ?_⟩
  · show ((updateId Node.id f st.nodes i).map Node.id).Pairwise (· < ·)
    rw [map_k_updateId hf]
    exact hN1
  · intro n hn
    rcases mem_updateId hn with ⟨h1, _⟩ | ⟨x, hx1, _, hx3⟩
    · exact hN2 n h1
    · rw [hx3]
      show (f x).id < st.nextNodeID
      rw [hf]
      exact hN2 x hx1
  · intro s hs
    show (lookupId Node.id (updateId Node.id f st.nodes i) s.nodeID).isSome = true
    rw [lookupId_updateId_isSome hf]
    exact hR1 s hs
  · intro b hb
    show (lookupId Node.id (updateId Node.id f st.nodes i) b.nodeID).isSome = true
    rw [lookupId_updateId_isSome hf]
    exact hR2 b hb

theorem WF_sessions_updateId {st : State} {f : Session → Session}
    (hf : ∀ s, (f s).id = s.id) (hfn : ∀ s, (f s).nodeID = s.nodeID) (i : Nat)
    (hWF : WF st) : WF { st with sessions := updateId Session.id f st.sessions i } := by
  obtain ⟨hN1, hN2, hS1, hS2, hB1, hB2, hR1, hR2⟩ := hWF
  refine ⟨hN1, hN2, ?_, ?_, hB1, hB2, ?_, hR2⟩
  · show ((updateId Session.id f st.sessions i).map Session.id).Pairwise (· < ·)
    rw [map_k_updateId hf]
    exact hS1
  · intro s hs
    rcases mem_updateId hs with ⟨h1, _⟩ | ⟨x, hx1, _, hx3⟩
    · exact hS2 s h1
    · rw [hx3]
      show (f x).id < st.nextSessionID
      rw [hf]
      exact hS2 x hx1
  · intro s hs
    rcases mem_updateId hs with ⟨h1, _⟩ | ⟨x, hx1, _, hx3⟩
    · exact hR1 s h1
    · rw [hx3]
      show (lookupId Node.id st.nodes (f x).nodeID).isSome = true
      rw [hfn]
      exact hR1 x hx1

theorem WF_subscriptions_updateId {st : State} {f : Subscription → Subscription}
    (hf : ∀ b, (f b).id = b.id) (hfn : ∀ b, (f b).nodeID = b.nodeID) (i : Nat)
    (hWF : WF st) : WF { st with subscriptions := updateId Subscription.id f st.subscriptions i } := by
  obtain ⟨hN1, hN2, hS1, hS2, hB1, hB2, hR1, hR2⟩ := hWF
  refine ⟨hN1, hN2, hS1, hS2, ?_, ?_, hR1, ?_⟩
  · show ((updateId Subscription.id f st.subscriptions i).map Subscription.id).Pairwise (· < ·)
    rw [map_k_updateId hf]
    exact hB1
  · intro b hb
    rcases mem_updateId hb with ⟨h1, _⟩ | ⟨x, hx1, _, hx3⟩
    · exact hB2 b h1
    · rw [hx3]
      show (f x).id < st.nextSubscriptionID
      rw [hf]
      exact hB2 x hx1
  · intro b hb
    rcases mem_updateId hb with ⟨h1, _⟩ | ⟨x, hx1, _, hx3⟩
    · exact hR2 b h1
    · rw [hx3]
      show (lookupId Node.id st.nodes (f x).nodeID).isSome = true
      rw [hfn]
      exact hR2 x hx1

theorem WFInv_registerNode {st st' : State} {owner price : Nat}
    (hWF : WF st) (hInv : escrowInvariant st)
    (h : registerNode st owner price = .ok st') : WF st' ∧ escrowInvariant st' := by
  unfold registerNode at h
  split at h
  · simp at h
  · cases h
    obtain ⟨hN1, hN2, hS1, hS2, hB1, hB2, hR1, hR2⟩ := hWF
    refine ⟨⟨?_, ?_, hS1, hS2, hB1, hB2, ?_, ?_⟩, hInv⟩
    · show ((st.nodes ++ [_]).map Node.id).Pairwise (· < ·)
      rw [List.map_append]
      refine pairwise_lt_append_one hN1 ?_
      intro x hx
      obtain ⟨n, hn, rfl⟩ := List.mem_map.1 hx
      exact hN2 n hn
    · intro n hn
      rcases List.mem_append.1 hn with h | h
      · exact Nat.lt_succ_of_lt (hN2 n h)
      · rw [List.mem_singleton.1 h]
        exact Nat.lt_succ_self _
    · intro s hs
      obtain ⟨n, hn⟩ := Option.isSome_iff_exists.1 (hR1 s hs)
      show (lookupId Node.id (st.nodes ++ [_]) s.nodeID).isSome = true
      rw [lookupId_append_of_some _ hn]
      rfl
    · intro b hb
      obtain ⟨n, hn⟩ := Option.isSome_iff_exists.1 (hR2 b hb)
      show (lookupId Node.id (st.nodes ++ [_]) b.nodeID).isSome = true
      rw [lookupId_append_of_some _ hn]
      rfl

theorem WFInv_updateNodeInfo {st st' : State} {i o p : Nat}
    (hWF : WF st) (hInv : escrowInvariant st)
    (h : updateNodeInfo st i o p = .ok st') : WF st' ∧ escrowInvariant st' := by
  unfold updateNodeInfo at h
  split at h
  · simp at h
  · split at h
    · simp at h
    · cases h
      exact ⟨WF_nodes_updateId (f := fun t => { t with price := p }) (fun _ => rfl) i hWF, hInv⟩

theorem WFInv_deregisterNode {st st' : State} {i o : Nat}
    (hWF : WF st) (hInv : escrowInvariant st)
    (h : deregisterNode st i o = .ok st') : WF st' ∧ escrowInvariant st' := by
  unfold deregisterNode at h
  split at h
  · simp at h
  · split at h
    · simp at h
    · split at h
      · simp at h
      · cases h
        exact ⟨WF_nodes_updateId (f := fun t => { t with status := .inactive }) (fun _ => rfl)
          i hWF, hInv⟩

theorem WFInv_updateSessionInfo {st st' : State} {i b : Nat}
    (hWF : WF st) (hInv : escrowInvariant st)
    (h : updateSessionInfo st i b = .ok st') : WF st' ∧ escrowInvariant st' := by
  unfold updateSessionInfo at h
  split at h
  · simp at h
  · rename_i s hs
    split at h
    · simp at h
    · split at h
      · simp at h
      · cases h
        refine ⟨WF_sessions_updateId (f := fun t => { t with bandwidthConsumed := b })
          (fun _ => rfl) (fun _ => rfl) i hWF, ?_⟩
        have hsum := sumBy_updateId (g := sessionLock)
          (f := fun t => { t with bandwidthConsumed := b }) (pairwise_lt_ne hWF.2.2.1) hs
        have hg : sessionLock ((fun t => { t with bandwidthConsumed := b }) s) =
            sessionLock s := rfl
        unfold escrowInvariant at hInv ⊢
        simp only at hInv ⊢
        omega

theorem WFInv_updateSubscriptionInfo {st st' : State} {i b : Nat}
    (hWF : WF st) (hInv : escrowInvariant st)
    (h : updateSubscriptionInfo st i b = .ok st') : WF st' ∧ escrowInvariant st' := by
  unfold updateSubscriptionInfo at h
  split at h
  · simp at h
  · rename_i x hx
    split at h
    · simp at h
    · split at h
      · simp at h
      · cases h
        refine ⟨WF_subscriptions_updateId (f := fun t => { t with bandwidthUsed := b })
          (fun _ => rfl) (fun _ => rfl) i hWF, ?_⟩
        have hsum := sumBy_updateId (g := subscriptionLock)
          (f := fun t => { t with bandwidthUsed := b }) (pairwise_lt_ne hWF.2.2.2.2.1) hx
        have hg : subscriptionLock ((fun t => { t with bandwidthUsed := b }) x) =
            subscriptionLock x := rfl
        unfold escrowInvariant at hInv ⊢
        simp only at hInv ⊢
        omega

theorem WFInv_settledSession {st : State} {s : Session} {n : Node} {i : Nat}
    (hWF : WF st) (hInv : escrowInvariant st)
    (hs : lookupId Session.id st.sessions i = some s) (hact : s.status = .active) :
    WF { st with
          escrowBalance := st.escrowBalance - s.lockedAmount,
          balances := addBal (addBal st.balances n.owner (sessionOwed s n)) s.subscriber
            (s.lockedAmount - sessionOwed s n),
          sessions := updateId Session.id (fun t => { t with status := .ended })
            st.sessions i } ∧
      escrowInvariant { st with
          escrowBalance := st.escrowBalance - s.lockedAmount,
          balances := addBal (addBal st.balances n.owner (sessionOwed s n)) s.subscriber
            (s.lockedAmount - sessionOwed s n),
          sessions := updateId Session.id (fun t => { t with status := .ended })
            st.sessions i } := by
  constructor
  · refine WF_congr rfl rfl rfl rfl rfl rfl
      (WF_sessions_updateId (f := fun t => { t with status := .ended })
        (fun _ => rfl) (fun _ => rfl) i hWF)
  · have hsum := sumBy_updateId (g := sessionLock)
      (f := fun t => { t with status := .ended }) (pairwise_lt_ne hWF.2.2.1) hs
    have hg0 : sessionLock ((fun t => { t with status := .ended }) s) = 0 := rfl
    have hgs : sessionLock s = s.lockedAmount := by
      unfold sessionLock
      rw [if_pos hact]
    have hmem := mem_sumBy_le (g := sessionLock) (lookupId_mem hs)
    unfold escrowInvariant at hInv ⊢
    simp only at hInv ⊢
    omega

theorem WFInv_settledSubscription {st : State} {x : Subscription} {n : Node} {i : Nat}
    (hWF : WF st) (hInv : escrowInvariant st)
    (hx : lookupId Subscription.id st.subscriptions i = some x) (hact : x.status = .active) :
    WF { st with
          escrowBalance := st.escrowBalance - x.deposit,
          balances := addBal (addBal st.balances n.owner (subscriptionOwed x n)) x.subscriber
            (x.deposit - subscriptionOwed x n),
          subscriptions := updateId Subscription.id (fun t => { t with status := .ended })
            st.subscriptions i } ∧
      escrowInvariant { st with
          escrowBalance := st.escrowBalance - x.deposit,
          balances := addBal (addBal st.balances n.owner (subscriptionOwed x n)) x.subscriber
            (x.deposit - subscriptionOwed x n),
          subscriptions := updateId Subscription.id (fun t => { t with status := .ended })
            st.subscriptions i } := by
  constructor
  · refine WF_congr rfl rfl rfl rfl rfl rfl
      (WF_subscriptions_updateId (f := fun t => { t with status := .ended })
        (fun _ => rfl) (fun _ => rfl) i hWF)
  · have hsum := sumBy_updateId (g := subscriptionLock)
      (f := fun t => { t with status := .ended }) (pairwise_lt_ne hWF.2.2.2.2.1) hx
    have hg0 : subscriptionLock ((fun t => { t with status := .ended }) x) = 0 := rfl
    have hgs : subscriptionLock x = x.deposit := by
      unfold subscriptionLock
      rw [if_pos hact]
    have hmem := mem_sumBy_le (g := subscriptionLock) (lookupId_mem hx)
    unfold escrowInvariant at hInv ⊢
    simp only at hInv ⊢
    omega

theorem WFInv_initSession {st st' : State} {sub nid amt : Nat}
    (hWF : WF st) (hInv : escrowInvariant st)
    (h : initSession st sub nid amt = .ok st') : WF st' ∧ escrowInvariant st' := by
  unfold initSession at h
  split at h
  · simp at h
  · rename_i n hn
    split at h
    · simp at h
    · split at h
      · simp at h
      · split at h
        · simp at h
        · rename_i st1 hlock
          cases h
          unfold lock at hlock
          split at hlock
          · simp at hlock
          · cases hlock
            obtain ⟨hN1, hN2, hS1, hS2, hB1, hB2, hR1, hR2⟩ := hWF
            refine ⟨⟨hN1, hN2, ?_, ?_, hB1, hB2, ?_, hR2⟩, ?_⟩
            · show ((st.sessions ++ [_]).map Session.id).Pairwise (· < ·)
              rw [List.map_append]
              refine pairwise_lt_append_one hS1 ?_
              intro y hy
              obtain ⟨s, hsm, rfl⟩ := List.mem_map.1 hy
              exact hS2 s hsm
            · intro s hs
              rcases List.mem_append.1 hs with hm | hm
              · exact Nat.lt_succ_of_lt (hS2 s hm)
              · rw [List.mem_singleton.1 hm]
                exact Nat.lt_succ_self _
            · intro s hs
              rcases List.mem_append.1 hs with hm | hm
              · exact hR1 s hm
              · rw [List.mem_singleton.1 hm]
                show (lookupId Node.id st.nodes nid).isSome = true
                rw [hn]
                rfl
            · show st.escrowBalance + amt =
                sumBy sessionLock (st.sessions ++ [_]) + sumBy subscriptionLock st.subscriptions
              rw [sumBy_append_one]
              have hg : sessionLock ⟨st.nextSessionID, nid, sub, amt, 0, .active,
                st.height + st.maxSessionDuration⟩ = amt := rfl
              unfold escrowInvariant at hInv
              omega

theorem WFInv_startSubscription {st st' : State} {sub nid dep : Nat}
    (hWF : WF st) (hInv : escrowInvariant st)
    (h : startSubscription st sub nid dep = .ok st') : WF st' ∧ escrowInvariant st' := by
  unfold startSubscription at h
  split at h
  · simp at h
  · rename_i n hn
    split at h
    · simp at h
    · split at h
      · simp at h
      · split at h
        · simp at h
        · rename_i st1 hlock
          cases h
          unfold lock at hlock
          split at hlock
          · simp at hlock
          · cases hlock
            obtain ⟨hN1, hN2, hS1, hS2, hB1, hB2, hR1, hR2⟩ := hWF
            refine ⟨⟨hN1, hN2, hS1, hS2, ?_, ?_, hR1, ?_⟩, ?_⟩
            · show ((st.subscriptions ++ [_]).map Subscription.id).Pairwise (· < ·)
              rw [List.map_append]
              refine pairwise_lt_append_one hB1 ?_
              intro y hy
              obtain ⟨x, hxm, rfl⟩ := List.mem_map.1 hy
              exact hB2 x hxm
            · intro x hx
              rcases List.mem_append.1 hx with hm | hm
              · exact Nat.lt_succ_of_lt (hB2 x hm)
              · rw [List.mem_singleton.1 hm]
                exact Nat.lt_succ_self _
            · intro x hx
              rcases List.mem_append.1 hx with hm | hm
              · exact hR2 x hm
              · rw [List.mem_singleton.1 hm]
                show (lookupId Node.id st.nodes nid).isSome = true
                rw [hn]
                rfl
            · show st.escrowBalance + dep =
                sumBy sessionLock st.sessions + sumBy subscriptionLock (st.subscriptions ++ [_])
              rw [sumBy_append_one]
              have hg : subscriptionLock ⟨st.nextSubscriptionID, nid, sub, dep, dep / n.price, 0,
                .active, st.height + st.maxSubscriptionDuration⟩ = dep := rfl
              unfold escrowInvariant at hInv
              omega

theorem WFInv_endSession {st st' : State} {i c : Nat}
    (hWF : WF st) (hInv : escrowInvariant st)
    (h : endSession st i c = .ok st') : WF st' ∧ escrowInvariant st' := by
  unfold endSession at h
  split at h
  · simp at h
  · rename_i s hs
    split at h
    · simp at h
    · rename_i hact
      split at h
      · simp at h
      · rename_i n hn
        split at h
        · simp at h
        · split at h
          · simp at h
          · rename_i st1 hset
            cases h
            unfold settle at hset
            split at hset
            · simp at hset
            · cases hset
              exact WFInv_settledSession hWF hInv hs (not_not.1 hact)

theorem WFInv_endSubscription {st st' : State} {i c : Nat}
    (hWF : WF st) (hInv : escrowInvariant st)
    (h : endSubscription st i c = .ok st') : WF st' ∧ escrowInvariant st' := by
  unfold endSubscription at h
  split at h
  · simp at h
  · rename_i x hx
    split at h
    · simp at h
    · rename_i hact
      split at h
      · simp at h
      · rename_i n hn
        split at h
        · simp at h
        · split at h
          · simp at h
          · rename_i st1 hset
            cases h
            unfold settle at hset
            split at hset
            · simp at hset
            · cases hset
              exact WFInv_settledSubscription hWF hInv hx (not_not.1 hact)

theorem WFInv_forceEndSession (st : State) (i : Nat)
    (h : WF st ∧ escrowInvariant st) :
    WF (forceEndSession st i) ∧ escrowInvariant (forceEndSession st i) := by
  obtain ⟨hWF, hInv⟩ := h
  unfold forceEndSession
  split
  · exact ⟨hWF, hInv⟩
  · rename_i s hs
    split
    · rename_i hcond
      split
      · exact ⟨hWF, hInv⟩
      · rename_i n hn
        split
        · exact ⟨hWF, hInv⟩
        · rename_i st1 hset
          unfold settle at hset
          split at hset
          · simp at hset
          · cases hset
            exact WFInv_settledSession hWF hInv hs hcond.1
    · exact ⟨hWF, hInv⟩

theorem WFInv_forceEndSubscription (st : State) (i : Nat)
    (h : WF st ∧ escrowInvariant st) :
    WF (forceEndSubscription st i) ∧ escrowInvariant (forceEndSubscription st i) := by
  obtain ⟨hWF, hInv⟩ := h
  unfold forceEndSubscription
  split
  · exact ⟨hWF, hInv⟩
  · rename_i x hx
    split
    · rename_i hcond
      split
      · exact ⟨hWF, hInv⟩
      · rename_i n hn
        split
        · exact ⟨hWF, hInv⟩
        · rename_i st1 hset
          unfold settle at hset
          split at hset
          · simp at hset
          · cases hset
            exact WFInv_settledSubscription hWF hInv hx hcond.1
    · exact ⟨hWF, hInv⟩

theorem WFInv_endBlockStep (st : State) (h : WF st ∧ escrowInvariant st) :
    WF (endBlockStep st) ∧ escrowInvariant (endBlockStep st) := by
  have h1 := foldl_preserve WFInv_forceEndSession (sessionSweepIds st) st h
  have h2 := foldl_preserve WFInv_forceEndSubscription
    (subscriptionSweepIds ((sessionSweepIds st).foldl forceEndSession st))
    ((sessionSweepIds st).foldl forceEndSession st) h1
  exact ⟨WF_congr rfl rfl rfl rfl rfl rfl h2.1, h2.2⟩

theorem WFInv_step {st st' : State} {op : Op} (hWF : WF st) (hInv : escrowInvariant st)
    (h : step st op = .ok st') : WF st' ∧ escrowInvariant st' := by
  cases op with
  | registerNode o p => exact WFInv_registerNode hWF hInv h
  | updateNodeInfo i o p => exact WFInv_updateNodeInfo hWF hInv h
  | deregisterNode i o => exact WFInv_deregisterNode hWF hInv h
  | initSession sub nid amt => exact WFInv_initSession hWF hInv h
  | updateSessionInfo i b => exact WFInv_updateSessionInfo hWF hInv h
  | endSession i c => exact WFInv_endSession hWF hInv h
  | startSubscription sub nid dep => exact WFInv_startSubscription hWF hInv h
  | updateSubscriptionInfo i b => exact WFInv_updateSubscriptionInfo hWF hInv h
  | endSubscription i c => exact WFInv_endSubscription hWF hInv h
  | endBlock =>
    have h' : Except.ok (ε := Err) (endBlockStep st) = .ok st' := h
    cases h'
    exact WFInv_endBlockStep st ⟨hWF, hInv⟩

theorem WFInv_applyOp (st : State) (op : Op) (h : WF st ∧ escrowInvariant st) :
    WF (applyOp st op) ∧ escrowInvariant (applyOp st op) := by
  unfold applyOp
  split
  · rename_i st1 h1
    exact WFInv_step h.1 h.2 h1
  · exact h

theorem WFInv_run (st : State) (ops : List Op) (h : WF st ∧ escrowInvariant st) :
    WF (run st ops) ∧ escrowInvariant (run st ops) := by
  induction ops generalizing st with
  | nil => exact h
  | cons op ops ih => exact ih _ (WFInv_applyOp st op h)

theorem WFInv_genesisState (bal : List (Nat × Nat)) (ms mb : Nat) :
    WF (genesisState bal ms mb) ∧ escrowInvariant (genesisState bal ms mb) := by
  constructor
  · refine ⟨?_, ?_, ?_, ?_, ?_, ?_, ?_, ?_⟩ <;> simp [genesisState]
  · rfl

theorem forceEndSession_fields (st : State) (j : Nat) :
    (forceEndSession st j).nodes = st.nodes ∧ (forceEndSession st j).height = st.height ∧
      (forceEndSession st j).subscriptions = st.subscriptions := by
  unfold forceEndSession
  split
  · exact ⟨rfl, rfl, rfl⟩
  · split
    · split
      · exact ⟨rfl, rfl, rfl⟩
      · split
        · exact ⟨rfl, rfl, rfl⟩
        · rename_i st1 hset
          unfold settle at hset
          split at hset
          · simp at hset
          · cases hset
            exact ⟨rfl, rfl, rfl⟩
    · exact ⟨rfl, rfl, rfl⟩

theorem forceEndSubscription_fields (st : State) (j : Nat) :
    (forceEndSubscription st j).nodes = st.nodes ∧
      (forceEndSubscription st j).height = st.height ∧
      (forceEndSubscription st j).sessions = st.sessions := by
  unfold forceEndSubscription
  split
  · exact ⟨rfl, rfl, rfl⟩
  · split
    · split
      · exact ⟨rfl, rfl, rfl⟩
      · split
        · exact ⟨rfl, rfl, rfl⟩
        · rename_i st1 hset
          unfold settle at hset
          split at hset
          · simp at hset
          · cases hset
            exact ⟨rfl, rfl, rfl⟩
    · exact ⟨rfl, rfl, rfl⟩

theorem forceEndSession_session_lookup (st : State) (j : Nat) {i : Nat} {s : Session}
    (hs : lookupId Session.id st.sessions i = some s) :
    ∃ t, lookupId Session.id (forceEndSession st j).sessions i = some t ∧
      s.bandwidthConsumed ≤ t.bandwidthConsumed ∧ (s.status = .ended → t = s) := by
  unfold forceEndSession
  split
  · exact ⟨s, hs, Nat.le_refl _, fun _ => rfl⟩
  · rename_i s2 hs2
    split
    · rename_i hcond
      split
      · exact ⟨s, hs, Nat.le_refl _, fun _ => rfl⟩
      · rename_i n hn
        split
        · exact ⟨s, hs, Nat.le_refl _, fun _ => rfl⟩
        · rename_i st1 hset
          unfold settle at hset
          split at hset
          · simp at hset
          · cases hset
            by_cases hij : i = j
            · subst hij
              rw [hs] at hs2
              injection hs2 with h2
              subst h2
              refine ⟨{ s with status := .ended }, ?_, Nat.le_refl _, ?_⟩
              · show lookupId Session.id (updateId Session.id
                  (fun t => { t with status := LifeStatus.ended }) st.sessions i) i =
                  some { s with status := LifeStatus.ended }
                rw [lookupId_updateId_self (k := Session.id)
                  (f := fun t : Session => { t with status := LifeStatus.ended })
                  (fun _ => rfl), hs]
                rfl
              · intro hend
                rw [hend] at hcond
                simp at hcond
            · refine ⟨s, ?_, Nat.le_refl _, fun _ => rfl⟩
              show lookupId Session.id (updateId Session.id
                (fun t => { t with status := LifeStatus.ended }) st.sessions j) i = some s
              rw [lookupId_updateId_ne (k := Session.id)
                (f := fun t : Session => { t with status := LifeStatus.ended })
                (fun _ => rfl) _ hij]
              exact hs
    · exact ⟨s, hs, Nat.le_refl _, fun _ => rfl⟩

theorem forceEndSubscription_subscription_lookup (st : State) (j : Nat) {i : Nat}
    {x : Subscription}
    (hx : lookupId Subscription.id st.subscriptions i = some x) :
    ∃ t, lookupId Subscription.id (forceEndSubscription st j).subscriptions i = some t ∧
      x.bandwidthUsed ≤ t.bandwidthUsed ∧ (x.status = .ended → t = x) := by
  unfold forceEndSubscription
  split
  · exact ⟨x, hx, Nat.le_refl _, fun _ => rfl⟩
  · rename_i x2 hx2
    split
    · rename_i hcond
      split
      · exact ⟨x, hx, Nat.le_refl _, fun _ => rfl⟩
      · rename_i n hn
        split
        · exact ⟨x, hx, Nat.le_refl _, fun _ => rfl⟩
        · rename_i st1 hset
          unfold settle at hset
          split at hset
          · simp at hset
          · cases hset
            by_cases hij : i = j
            · subst hij
              rw [hx] at hx2
              injection hx2 with h2
              subst h2
              refine ⟨{ x with status := .ended }, ?_, Nat.le_refl _, ?_⟩
              · show lookupId Subscription.id (updateId Subscription.id
                  (fun t => { t with status := LifeStatus.ended }) st.subscriptions i) i =
                  some { x with status := LifeStatus.ended }
                rw [lookupId_updateId_self (k := Subscription.id)
                  (f := fun t : Subscription => { t with status := LifeStatus.ended })
                  (fun _ => rfl), hx]
                rfl
              · intro hend
                rw [hend] at hcond
                simp at hcond
            · refine ⟨x, ?_, Nat.le_refl _, fun _ => rfl⟩
              show lookupId Subscription.id (updateId Subscription.id
                (fun t => { t with status := LifeStatus.ended }) st.subscriptions j) i = some x
              rw [lookupId_updateId_ne (k := Subscription.id)
                (f := fun t : Subscription => { t with status := LifeStatus.ended })
                (fun _ => rfl) _ hij]
              exact hx
    · exact ⟨x, hx, Nat.le_refl _, fun _ => rfl⟩

theorem foldl_forceEndSession_session_lookup :
    ∀ (l : List Nat) (st : State) {i : Nat} {s : Session},
      lookupId Session.id st.sessions i = some s →
      ∃ t, lookupId Session.id ((l.foldl forceEndSession st)).sessions i = some t ∧
        s.bandwidthConsumed ≤ t.bandwidthConsumed ∧ (s.status = .ended → t = s)
  | [], _, _, s, hs => ⟨s, hs, Nat.le_refl _, fun _ => rfl⟩
  | j :: js, st, i, s, hs => by
    obtain ⟨t1, h1, h2, h3⟩ := forceEndSession_session_lookup st j hs
    obtain ⟨t, h4, h5, h6⟩ := foldl_forceEndSession_session_lookup js (forceEndSession st j) h1
    refine ⟨t, h4, Nat.le_trans h2 h5, ?_⟩
    intro hend
    have ht1 : t1 = s := h3 hend
    rw [ht1] at h6
    exact h6 hend

theorem foldl_forceEndSubscription_subscription_lookup :
    ∀ (l : List Nat) (st : State) {i : Nat} {x : Subscription},
      lookupId Subscription.id st.subscriptions i = some x →
      ∃ t, lookupId Subscription.id
          ((l.foldl forceEndSubscription st)).subscriptions i = some t ∧
        x.bandwidthUsed ≤ t.bandwidthUsed ∧ (x.status = .ended → t = x)
  | [], _, _, x, hx => ⟨x, hx, Nat.le_refl _, fun _ => rfl⟩
  | j :: js, st, i, x, hx => by
    obtain ⟨t1, h1, h2, h3⟩ := forceEndSubscription_subscription_lookup st j hx
    obtain ⟨t, h4, h5, h6⟩ :=
      foldl_forceEndSubscription_subscription_lookup js (forceEndSubscription st j) h1
    refine ⟨t, h4, Nat.le_trans h2 h5, ?_⟩
    intro hend
    have ht1 : t1 = x := h3 hend
    rw [ht1] at h6
    exact h6 hend

theorem foldl_forceEndSubscription_sessions_eq :
    ∀ (l : List Nat) (st : State), ((l.foldl forceEndSubscription st)).sessions = st.sessions
  | [], _ => rfl
  | j :: js, st => by
    rw [show (j :: js).foldl forceEndSubscription st =
      js.foldl forceEndSubscription (forceEndSubscription st j) from rfl,
      foldl_forceEndSubscription_sessions_eq js, (forceEndSubscription_fields st j).2.2]

theorem foldl_forceEndSession_subscriptions_eq :
    ∀ (l : List Nat) (st : State), ((l.foldl forceEndSession st)).subscriptions = st.subscriptions
  | [], _ => rfl
  | j :: js, st => by
    rw [show (j :: js).foldl forceEndSession st =
      js.foldl forceEndSession (forceEndSession st j) from rfl,
      foldl_forceEndSession_subscriptions_eq js, (forceEndSession_fields st j).2.2]

theorem applyOp_session_lookup (st : State) (op : Op) {i : Nat} {s : Session}
    (hs : lookupId Session.id st.sessions i = some s) :
    ∃ t, lookupId Session.id (applyOp st op).sessions i = some t ∧
      s.bandwidthConsumed ≤ t.bandwidthConsumed ∧ (s.status = .ended → t = s) := by
  cases op with
  | registerNode o p =>
    unfold applyOp
    split
    · rename_i st1 h1
      replace h1 : registerNode st o p = .ok st1 := h1
      unfold registerNode at h1
      split at h1
      · simp at h1
      · cases h1
        exact ⟨s, hs, Nat.le_refl _, fun _ => rfl⟩
    · exact ⟨s, hs, Nat.le_refl _, fun _ => rfl⟩
  | updateNodeInfo j o p =>
    unfold applyOp
    split
    · rename_i st1 h1
      replace h1 : updateNodeInfo st j o p = .ok st1 := h1
      unfold updateNodeInfo at h1
      split at h1
      · simp at h1
      · split at h1
        · simp at h1
        · cases h1
          exact ⟨s, hs, Nat.le_refl _, fun _ => rfl⟩
    · exact ⟨s, hs, Nat.le_refl _, fun _ => rfl⟩
  | deregisterNode j o =>
    unfold applyOp
    split
    · rename_i st1 h1
      replace h1 : deregisterNode st j o = .ok st1 := h1
      unfold deregisterNode at h1
      split at h1
      · simp at h1
      · split at h1
        · simp at h1
        · split at h1
          · simp at h1
          · cases h1
            exact ⟨s, hs, Nat.le_refl _, fun _ => rfl⟩
    · exact ⟨s, hs, Nat.le_refl _, fun _ => rfl⟩
  | initSession sub nid amt =>
    unfold applyOp
    split
    · rename_i st1 h1
      replace h1 : initSession st sub nid amt = .ok st1 := h1
      unfold initSession at h1
      split at h1
      · simp at h1
      · split at h1
        · simp at h1
        · split at h1
          · simp at h1
          · split at h1
            · simp at h1
            · rename_i stL hlock
              cases h1
              unfold lock at hlock
              split at hlock
              · simp at hlock
              · cases hlock
                exact ⟨s, lookupId_append_of_some _ hs, Nat.le_refl _, fun _ => rfl⟩
    · exact ⟨s, hs, Nat.le_refl _, fun _ => rfl⟩
  | updateSessionInfo j b =>
    unfold applyOp
    split
    · rename_i st1 h1
      replace h1 : updateSessionInfo st j b = .ok st1 := h1
      unfold updateSessionInfo at h1
      split at h1
      · simp at h1
      · rename_i s2 hs2
        split at h1
        · simp at h1
        · rename_i hact
          split at h1
          · simp at h1
          · rename_i hlt
            cases h1
            by_cases hij : i = j
            · subst hij
              rw [hs] at hs2
              injection hs2 with h2
              subst h2
              refine ⟨{ s with bandwidthConsumed := b }, ?_, Nat.le_of_not_lt hlt, ?_⟩
              · show lookupId Session.id (updateId Session.id
                  (fun t => { t with bandwidthConsumed := b }) st.sessions i) i =
                  some { s with bandwidthConsumed := b }
                rw [lookupId_updateId_self (k := Session.id)
                  (f := fun t : Session => { t with bandwidthConsumed := b })
                  (fun _ => rfl), hs]
                rfl
              · intro hend
                rw [hend] at hact
                simp at hact
            · refine ⟨s, ?_, Nat.le_refl _, fun _ => rfl⟩
              show lookupId Session.id (updateId Session.id
                (fun t => { t with bandwidthConsumed := b }) st.sessions j) i = some s
              rw [lookupId_updateId_ne (k := Session.id)
                (f := fun t : Session => { t with bandwidthConsumed := b })
                (fun _ => rfl) _ hij]
              exact hs
    · exact ⟨s, hs, Nat.le_refl _, fun _ => rfl⟩
  | endSession j c =>
    unfold applyOp
    split
    · rename_i st1 h1
      replace h1 : endSession st j c = .ok st1 := h1
      unfold endSession at h1
      split at h1
      · simp at h1
      · rename_i s2 hs2
        split at h1
        · simp at h1
        · rename_i hact
          split at h1
          · simp at h1
          · split at h1
            · simp at h1
            · split at h1
              · simp at h1
              · rename_i stS hset
                cases h1
                unfold settle at hset
                split at hset
                · simp at hset
                · cases hset
                  by_cases hij : i = j
                  · subst hij
                    rw [hs] at hs2
                    injection hs2 with h2
                    subst h2
                    refine ⟨{ s with status := .ended }, ?_, Nat.le_refl _, ?_⟩
                    · show lookupId Session.id (updateId Session.id
                        (fun t => { t with status := LifeStatus.ended }) st.sessions i) i =
                        some { s with status := LifeStatus.ended }
                      rw [lookupId_updateId_self (k := Session.id)
                        (f := fun t : Session => { t with status := LifeStatus.ended })
                        (fun _ => rfl), hs]
                      rfl
                    · intro hend
                      rw [hend] at hact
                      simp at hact
                  · refine ⟨s, ?_, Nat.le_refl _, fun _ => rfl⟩
                    show lookupId Session.id (updateId Session.id
                      (fun t => { t with status := LifeStatus.ended }) st.sessions j) i = some s
                    rw [lookupId_updateId_ne (k := Session.id)
                      (f := fun t : Session => { t with status := LifeStatus.ended })
                      (fun _ => rfl) _ hij]
                    exact hs
    · exact ⟨s, hs, Nat.le_refl _, fun _ => rfl⟩
  | startSubscription sub nid dep =>
    unfold applyOp
    split
    · rename_i st1 h1
      replace h1 : startSubscription st sub nid dep = .ok st1 := h1
      unfold startSubscription at h1
      split at h1
      · simp at h1
      · split at h1
        · simp at h1
        · split at h1
          · simp at h1
          · split at h1
            · simp at h1
            · rename_i stL hlock
              cases h1
              unfold lock at hlock
              split at hlock
              · simp at hlock
              · cases hlock
                exact ⟨s, hs, Nat.le_refl _, fun _ => rfl⟩
    · exact ⟨s, hs, Nat.le_refl _, fun _ => rfl⟩
  | updateSubscriptionInfo j b =>
    unfold applyOp
    split
    · rename_i st1 h1
      replace h1 : updateSubscriptionInfo st j b = .ok st1 := h1
      unfold updateSubscriptionInfo at h1
      split at h1
      · simp at h1
      · split at h1
        · simp at h1
        · split at h1
          · simp at h1
          · cases h1
            exact ⟨s, hs, Nat.le_refl _, fun _ => rfl⟩
    · exact ⟨s, hs, Nat.le_refl _, fun _ => rfl⟩
  | endSubscription j c =>
    unfold applyOp
    split
    · rename_i st1 h1
      replace h1 : endSubscription st j c = .ok st1 := h1
      unfold endSubscription at h1
      split at h1
      · simp at h1
      · split at h1
        · simp at h1
        · split at h1
          · simp at h1
          · split at h1
            · simp at h1
            · split at h1
              · simp at h1
              · rename_i stS hset
                cases h1
                unfold settle at hset
                split at hset
                · simp at hset
                · cases hset
                  exact ⟨s, hs, Nat.le_refl _, fun _ => rfl⟩
    · exact ⟨s, hs, Nat.le_refl _, fun _ => rfl⟩
  | endBlock =>
    have happ : applyOp st .endBlock = endBlockStep st := rfl
    rw [happ]
    obtain ⟨t, h1, h2, h3⟩ := foldl_forceEndSession_session_lookup (sessionSweepIds st) st hs
    refine ⟨t, ?_, h2, h3⟩
    show lookupId Session.id
      ((subscriptionSweepIds ((sessionSweepIds st).foldl forceEndSession st)).foldl
        forceEndSubscription ((sessionSweepIds st).foldl forceEndSession st)).sessions i = some t
    rw [foldl_forceEndSubscription_sessions_eq]
    exact h1

theorem applyOp_subscription_lookup (st : State) (op : Op) {i : Nat} {x : Subscription}
    (hx : lookupId Subscription.id st.subscriptions i = some x) :
    ∃ t, lookupId Subscription.id (applyOp st op).subscriptions i = some t ∧
      x.bandwidthUsed ≤ t.bandwidthUsed ∧ (x.status = .ended → t = x) := by
  cases op with
  | registerNode o p =>
    unfold applyOp
    split
    · rename_i st1 h1
      replace h1 : registerNode st o p = .ok st1 := h1
      unfold registerNode at h1
      split at h1
      · simp at h1
      · cases h1
        exact ⟨x, hx, Nat.le_refl _, fun _ => rfl⟩
    · exact ⟨x, hx, Nat.le_refl _, fun _ => rfl⟩
  | updateNodeInfo j o p =>
    unfold applyOp
    split
    · rename_i st1 h1
      replace h1 : updateNodeInfo st j o p = .ok st1 := h1
      unfold updateNodeInfo at h1
      split at h1
      · simp at h1
      · split at h1
        · simp at h1
        · cases h1
          exact ⟨x, hx, Nat.le_refl _, fun _ => rfl⟩
    · exact ⟨x, hx, Nat.le_refl _, fun _ => rfl⟩
  | deregisterNode j o =>
    unfold applyOp
    split
    · rename_i st1 h1
      replace h1 : deregisterNode st j o = .ok st1 := h1
      unfold deregisterNode at h1
      split at h1
      · simp at h1
      · split at h1
        · simp at h1
        · split at h1
          · simp at h1
          · cases h1
            exact ⟨x, hx, Nat.le_refl _, fun _ => rfl⟩
    · exact ⟨x, hx, Nat.le_refl _, fun _ => rfl⟩
  | initSession sub nid amt =>
    unfold applyOp
    split
    · rename_i st1 h1
      replace h1 : initSession st sub nid amt = .ok st1 := h1
      unfold initSession at h1
      split at h1
      · simp at h1
      · split at h1
        · simp at h1
        · split at h1
          · simp at h1
          · split at h1
            · simp at h1
            · rename_i stL hlock
              cases h1
              unfold lock at hlock
              split at hlock
              · simp at hlock
              · cases hlock
                exact ⟨x, hx, Nat.le_refl _, fun _ => rfl⟩
    · exact ⟨x, hx, Nat.le_refl _, fun _ => rfl⟩
  | updateSessionInfo j b =>
    unfold applyOp
    split
    · rename_i st1 h1
      replace h1 : updateSessionInfo st j b = .ok st1 := h1
      unfold updateSessionInfo at h1
      split at h1
      · simp at h1
      · split at h1
        · simp at h1
        · split at h1
          · simp at h1
          · cases h1
            exact ⟨x, hx, Nat.le_refl _, fun _ => rfl⟩
    · exact ⟨x, hx, Nat.le_refl _, fun _ => rfl⟩
  | endSession j c =>
    unfold applyOp
    split
    · rename_i st1 h1
      replace h1 : endSession st j c = .ok st1 := h1
      unfold endSession at h1
      split at h1
      · simp at h1
      · split at h1
        · simp at h1
        · split at h1
          · simp at h1
          · split at h1
            · simp at h1
            · split at h1
              · simp at h1
              · rename_i stS hset
                cases h1
                unfold settle at hset
                split at hset
                · simp at hset
                · cases hset
                  exact ⟨x, hx, Nat.le_refl _, fun _ => rfl⟩
    · exact ⟨x, hx, Nat.le_refl _, fun _ => rfl⟩
  | startSubscription sub nid dep =>
    unfold applyOp
    split
    · rename_i st1 h1
      replace h1 : startSubscription st sub nid dep = .ok st1 := h1
      unfold startSubscription at h1
      split at h1
      · simp at h1
      · split at h1
        · simp at h1
        · split at h1
          · simp at h1
          · split at h1
            · simp at h1
            · rename_i stL hlock
              cases h1
              unfold lock at hlock
              split at hlock
              · simp at hlock
              · cases hlock
                exact ⟨x, lookupId_append_of_some _ hx, Nat.le_refl _, fun _ => rfl⟩
    · exact ⟨x, hx, Nat.le_refl _, fun _ => rfl⟩
  | updateSubscriptionInfo j b =>
    unfold applyOp
    split
    · rename_i st1 h1
      replace h1 : updateSubscriptionInfo st j b = .ok st1 := h1
      unfold updateSubscriptionInfo at h1
      split at h1
      · simp at h1
      · rename_i x2 hx2
        split at h1
        · simp at h1
        · rename_i hact
          split at h1
          · simp at h1
          · rename_i hlt
            cases h1
            by_cases hij : i = j
            · subst hij
              rw [hx] at hx2
              injection hx2 with h2
              subst h2
              refine ⟨{ x with bandwidthUsed := b }, ?_, Nat.le_of_not_lt hlt, ?_⟩
              · show lookupId Subscription.id (updateId Subscription.id
                  (fun t => { t with bandwidthUsed := b }) st.subscriptions i) i =
                  some { x with bandwidthUsed := b }
                rw [lookupId_updateId_self (k := Subscription.id)
                  (f := fun t : Subscription => { t with bandwidthUsed := b })
                  (fun _ => rfl), hx]
                rfl
              · intro hend
                rw [hend] at hact
                simp at hact
            · refine ⟨x, ?_, Nat.le_refl _, fun _ => rfl⟩
              show lookupId Subscription.id (updateId Subscription.id
                (fun t => { t with bandwidthUsed := b }) st.subscriptions j) i = some x
              rw [lookupId_updateId_ne (k := Subscription.id)
                (f := fun t : Subscription => { t with bandwidthUsed := b })
                (fun _ => rfl) _ hij]
              exact hx
    · exact ⟨x, hx, Nat.le_refl _, fun _ => rfl⟩
  | endSubscription j c =>
    unfold applyOp
    split
    · rename_i st1 h1
      replace h1 : endSubscription st j c = .ok st1 := h1
      unfold endSubscription at h1
      split at h1
      · simp at h1
      · rename_i x2 hx2
        split at h1
        · simp at h1
        · rename_i hact
          split at h1
          · simp at h1
          · split at h1
            · simp at h1
            · split at h1
              · simp at h1
              · rename_i stS hset
                cases h1
                unfold settle at hset
                split at hset
                · simp at hset
                · cases hset
                  by_cases hij : i = j
                  · subst hij
                    rw [hx] at hx2
                    injection hx2 with h2
                    subst h2
                    refine ⟨{ x with status := .ended }, ?_, Nat.le_refl _, ?_⟩
                    · show lookupId Subscription.id (updateId Subscription.id
                        (fun t => { t with status := LifeStatus.ended }) st.subscriptions i) i =
                        some { x with status := LifeStatus.ended }
                      rw [lookupId_updateId_self (k := Subscription.id)
                        (f := fun t : Subscription => { t with status := LifeStatus.ended })
                        (fun _ => rfl), hx]
                      rfl
                    · intro hend
                      rw [hend] at hact
                      simp at hact
                  · refine ⟨x, ?_, Nat.le_refl _, fun _ => rfl⟩
                    show lookupId Subscription.id (updateId Subscription.id
                      (fun t => { t with status := LifeStatus.ended }) st.subscriptions j) i =
                      some x
                    rw [lookupId_updateId_ne (k := Subscription.id)
                      (f := fun t : Subscription => { t with status := LifeStatus.ended })
                      (fun _ => rfl) _ hij]
                    exact hx
    · exact ⟨x, hx, Nat.le_refl _, fun _ => rfl⟩
  | endBlock =>
    have happ : applyOp st .endBlock = endBlockStep st := rfl
    rw [happ]
    have hsub1 : ((sessionSweepIds st).foldl forceEndSession st).subscriptions =
        st.subscriptions := foldl_forceEndSession_subscriptions_eq _ st
    obtain ⟨t, h1, h2, h3⟩ := foldl_forceEndSubscription_subscription_lookup
      (subscriptionSweepIds ((sessionSweepIds st).foldl forceEndSession st))
      ((sessionSweepIds st).foldl forceEndSession st) (by rw [hsub1]; exact hx)
    exact ⟨t, h1, h2, h3⟩

theorem run_session_lookup (st : State) (ops : List Op) {i : Nat} {s : Session}
    (hs : lookupId Session.id st.sessions i = some s) :
    ∃ t, lookupId Session.id (run st ops).sessions i = some t ∧
      s.bandwidthConsumed ≤ t.bandwidthConsumed ∧ (s.status = .ended → t = s) := by
  induction ops generalizing st s with
  | nil => exact ⟨s, hs, Nat.le_refl _, fun _ => rfl⟩
  | cons op ops ih =>
    obtain ⟨t1, h1, h2, h3⟩ := applyOp_session_lookup st op hs
    obtain ⟨t, h4, h5, h6⟩ := ih _ h1
    refine ⟨t, h4, Nat.le_trans h2 h5, ?_⟩
    intro hend
    have ht1 : t1 = s := h3 hend
    rw [ht1] at h6
    exact h6 hend

theorem run_subscription_lookup (st : State) (ops : List Op) {i : Nat} {x : Subscription}
    (hx : lookupId Subscription.id st.subscriptions i = some x) :
    ∃ t, lookupId Subscription.id (run st ops).subscriptions i = some t ∧
      x.bandwidthUsed ≤ t.bandwidthUsed ∧ (x.status = .ended → t = x) := by
  induction ops generalizing st x with
  | nil => exact ⟨x, hx, Nat.le_refl _, fun _ => rfl⟩
  | cons op ops ih =>
    obtain ⟨t1, h1, h2, h3⟩ := applyOp_subscription_lookup st op hx
    obtain ⟨t, h4, h5, h6⟩ := ih _ h1
    refine ⟨t, h4, Nat.le_trans h2 h5, ?_⟩
    intro hend
    have ht1 : t1 = x := h3 hend
    rw [ht1] at h6
    exact h6 hend

theorem updateSessionInfo_decrease_fails {st : State} {i b : Nat} {s : Session}
    (hs : lookupId Session.id st.sessions i = some s)
    (hact : s.status = .active) (hlt : b < s.bandwidthConsumed) :
    updateSessionInfo st i b = .error .invalidParameter := by
  unfold updateSessionInfo
  simp only [hs]
  rw [if_neg (show ¬s.status ≠ LifeStatus.active by rw [hact]; simp), if_pos hlt]

theorem updateSubscriptionInfo_decrease_fails {st : State} {i b : Nat} {x : Subscription}
    (hx : lookupId Subscription.id st.subscriptions i = some x)
    (hact : x.status = .active) (hlt : b < x.bandwidthUsed) :
    updateSubscriptionInfo st i b = .error .invalidParameter := by
  unfold updateSubscriptionInfo
  simp only [hx]
  rw [if_neg (show ¬x.status ≠ LifeStatus.active by rw [hact]; simp), if_pos hlt]

theorem endSession_ended_fails {st : State} {i c : Nat} {s : Session}
    (hs : lookupId Session.id st.sessions i = some s) (hend : s.status = .ended) :
    endSession st i c = .error .preconditionFailed := by
  unfold endSession
  simp only [hs]
  rw [if_pos (show s.status ≠ LifeStatus.active by rw [hend]; simp)]

theorem endSubscription_ended_fails {st : State} {i c : Nat} {x : Subscription}
    (hx : lookupId Subscription.id st.subscriptions i = some x) (hend : x.status = .ended) :
    endSubscription st i c = .error .preconditionFailed := by
  unfold endSubscription
  simp only [hx]
  rw [if_pos (show x.status ≠ LifeStatus.active by rw [hend]; simp)]

theorem endSession_ok_inversion {st st1 : State} {i c : Nat}
    (h : endSession st i c = .ok st1) :
    ∃ s, lookupId Session.id st.sessions i = some s ∧ s.status = .active ∧
      lookupId Session.id st1.sessions i = some { s with status := LifeStatus.ended } := by
  unfold endSession at h
  split at h
  · simp at h
  · rename_i s hs
    split at h
    · simp at h
    · rename_i hact
      split at h
      · simp at h
      · split at h
        · simp at h
        · split at h
          · simp at h
          · rename_i stS hset
            cases h
            unfold settle at hset
            split at hset
            · simp at hset
            · cases hset
              refine ⟨s, hs, not_not.1 hact, ?_⟩
              show lookupId Session.id (updateId Session.id
                (fun t => { t with status := LifeStatus.ended }) st.sessions i) i =
                some { s with status := LifeStatus.ended }
              rw [lookupId_updateId_self (k := Session.id)
                (f := fun t : Session => { t with status := LifeStatus.ended })
                (fun _ => rfl), hs]
              rfl

theorem endSubscription_ok_inversion {st st1 : State} {i c : Nat}
    (h : endSubscription st i c = .ok st1) :
    ∃ x, lookupId Subscription.id st.subscriptions i = some x ∧ x.status = .active ∧
      lookupId Subscription.id st1.subscriptions i =
        some { x with status := LifeStatus.ended } := by
  unfold endSubscription at h
  split at h
  · simp at h
  · rename_i x hx
    split at h
    · simp at h
    · rename_i hact
      split at h
      · simp at h
      · split at h
        · simp at h
        · split at h
          · simp at h
          · rename_i stS hset
            cases h
            unfold settle at hset
            split at hset
            · simp at hset
            · cases hset
              refine ⟨x, hx, not_not.1 hact, ?_⟩
              show lookupId Subscription.id (updateId Subscription.id
                (fun t => { t with status := LifeStatus.ended }) st.subscriptions i) i =
                some { x with status := LifeStatus.ended }
              rw [lookupId_updateId_self (k := Subscription.id)
                (f := fun t : Subscription => { t with status := LifeStatus.ended })
                (fun _ => rfl), hx]
              rfl

theorem deregisterNode_active_ref_fails {st : State} {i o : Nat} {n : Node}
    (hn : lookupId Node.id st.nodes i = some n) (howner : o = n.owner)
    (href : hasActiveRef st i = true) :
    deregisterNode st i o = .error .preconditionFailed := by
  unfold deregisterNode
  simp only [hn]
  rw [if_neg (show ¬o ≠ n.owner by rw [howner]; simp), if_pos href]

theorem deregisterNode_no_ref_ok {st : State} {i o : Nat} {n : Node}
    (hn : lookupId Node.id st.nodes i = some n) (howner : o = n.owner)
    (href : hasActiveRef st i = false) :
    deregisterNode st i o = .ok { st with
      nodes := updateId Node.id (fun t => { t with status := .inactive }) st.nodes i } ∧
    lookupId Node.id
      (updateId Node.id (fun t => { t with status := NodeStatus.inactive }) st.nodes i) i =
      some { n with status := NodeStatus.inactive } := by
  constructor
  · unfold deregisterNode
    simp only [hn]
    rw [if_neg (show ¬o ≠ n.owner by rw [howner]; simp), if_neg (by rw [href]; simp)]
  · rw [lookupId_updateId_self (k := Node.id)
      (f := fun t : Node => { t with status := NodeStatus.inactive }) (fun _ => rfl), hn]
    rfl

theorem initSession_inactive_fails {st : State} {nid : Nat} {n : Node}
    (hn : lookupId Node.id st.nodes nid = some n) (hin : n.status = .inactive)
    (sub amt : Nat) :
    initSession st sub nid amt = .error .notFound := by
  unfold initSession
  simp only [hn]
  rw [if_pos (show n.status ≠ NodeStatus.active by rw [hin]; simp)]

theorem hasActiveRef_iff (st : State) (nid : Nat) :
    hasActiveRef st nid = true ↔
      (∃ s ∈ st.sessions, s.status = .active ∧ s.nodeID = nid) ∨
      (∃ b ∈ st.subscriptions, b.status = .active ∧ b.nodeID = nid) := by
  unfold hasActiveRef
  simp only [Bool.or_eq_true, List.any_eq_true, Bool.and_eq_true, beq_iff_eq]

theorem startSubscription_ok_inversion {st st1 : State} {sub nid dep : Nat}
    (h : startSubscription st sub nid dep = .ok st1) :
    ∃ n, lookupId Node.id st.nodes nid = some n ∧ n.status = .active ∧ dep ≠ 0 ∧
      st1.subscriptions = st.subscriptions ++
        [⟨st.nextSubscriptionID, nid, sub, dep, dep / n.price, 0, .active,
          st.height + st.maxSubscriptionDuration⟩] := by
  unfold startSubscription at h
  split at h
  · simp at h
  · rename_i n hn
    split at h
    · simp at h
    · rename_i hact
      split at h
      · simp at h
      · rename_i hdep
        split at h
        · simp at h
        · rename_i stL hlock
          cases h
          unfold lock at hlock
          split at hlock
          · simp at hlock
          · cases hlock
            exact ⟨n, hn, not_not.1 hact, hdep, rfl⟩

theorem lookupId_of_mem_uniq {k : α → Nat} :
    ∀ {xs : List α}, (xs.map k).Pairwise (· ≠ ·) → ∀ {x : α}, x ∈ xs →
      lookupId k xs (k x) = some x
  | [], _, _, hx => by simp at hx
  | y :: ys, huniq, x, hx => by
    rcases List.mem_cons.1 hx with h | h
    · subst h
      unfold lookupId
      rw [if_pos rfl]
    · have hne : k y ≠ k x :=
        (List.pairwise_cons.1 huniq).1 (k x) (List.mem_map_of_mem k h)
      unfold lookupId
      rw [if_neg hne]
      exact lookupId_of_mem_uniq (List.pairwise_cons.1 huniq).2 h

theorem WF_forceEndSession (cur : State) (j : Nat) (hWF : WF cur) :
    WF (forceEndSession cur j) := by
  unfold forceEndSession
  split
  · exact hWF
  · split
    · split
      · exact hWF
      · split
        · exact hWF
        · rename_i st1 hset
          unfold settle at hset
          split at hset
          · simp at hset
          · cases hset
            exact WF_congr rfl rfl rfl rfl rfl rfl
              (WF_sessions_updateId (f := fun t : Session => { t with status := .ended })
                (fun _ => rfl) (fun _ => rfl) _ hWF)
    · exact hWF

theorem WF_forceEndSubscription (cur : State) (j : Nat) (hWF : WF cur) :
    WF (forceEndSubscription cur j) := by
  unfold forceEndSubscription
  split
  · exact hWF
  · split
    · split
      · exact hWF
      · split
        · exact hWF
        · rename_i st1 hset
          unfold settle at hset
          split at hset
          · simp at hset
          · cases hset
            exact WF_congr rfl rfl rfl rfl rfl rfl
              (WF_subscriptions_updateId (f := fun t : Subscription => { t with status := .ended })
                (fun _ => rfl) (fun _ => rfl) _ hWF)
    · exact hWF

theorem WF_foldl_forceEndSession :
    ∀ (l : List Nat) (cur : State), WF cur → WF (l.foldl forceEndSession cur)
  | [], _, h => h
  | j :: js, cur, h => WF_foldl_forceEndSession js _ (WF_forceEndSession cur j h)

theorem foldl_forceEndSession_height :
    ∀ (l : List Nat) (cur : State), ((l.foldl forceEndSession cur)).height = cur.height
  | [], _ => rfl
  | j :: js, cur => by
    rw [show (j :: js).foldl forceEndSession cur =
      js.foldl forceEndSession (forceEndSession cur j) from rfl,
      foldl_forceEndSession_height js, (forceEndSession_fields cur j).2.1]

theorem forceEndSession_sessions_map_id (cur : State) (j : Nat) :
    ((forceEndSession cur j).sessions).map Session.id = (cur.sessions).map Session.id := by
  unfold forceEndSession
  split
  · rfl
  · split
    · split
      · rfl
      · split
        · rfl
        · rename_i st1 hset
          unfold settle at hset
          split at hset
          · simp at hset
          · cases hset
            exact map_k_updateId (k := Session.id) (f := fun t : Session => { t with status := .ended })
              (fun _ => rfl) _ _
    · rfl

theorem foldl_forceEndSession_sessions_map_id :
    ∀ (l : List Nat) (cur : State),
      (((l.foldl forceEndSession cur)).sessions).map Session.id = cur.sessions.map Session.id
  | [], _ => rfl
  | j :: js, cur => by
    rw [show (j :: js).foldl forceEndSession cur =
      js.foldl forceEndSession (forceEndSession cur j) from rfl,
      foldl_forceEndSession_sessions_map_id js, forceEndSession_sessions_map_id]

theorem forceEndSubscription_subscriptions_map_id (cur : State) (j : Nat) :
    ((forceEndSubscription cur j).subscriptions).map Subscription.id =
      (cur.subscriptions).map Subscription.id := by
  unfold forceEndSubscription
  split
  · rfl
  · split
    · split
      · rfl
      · split
        · rfl
        · rename_i st1 hset
          unfold settle at hset
          split at hset
          · simp at hset
          · cases hset
            exact map_k_updateId (k := Subscription.id) (f := fun t : Subscription => { t with status := .ended })
              (fun _ => rfl) _ _
    · rfl

theorem foldl_forceEndSubscription_subscriptions_map_id :
    ∀ (l : List Nat) (cur : State),
      (((l.foldl forceEndSubscription cur)).subscriptions).map Subscription.id =
        cur.subscriptions.map Subscription.id
  | [], _ => rfl
  | j :: js, cur => by
    rw [show (j :: js).foldl forceEndSubscription cur =
      js.foldl forceEndSubscription (forceEndSubscription cur j) from rfl,
      foldl_forceEndSubscription_subscriptions_map_id js,
      forceEndSubscription_subscriptions_map_id]

theorem forceEndSession_clears (cur : State) (j : Nat) (hWF : WF cur) :
    ∀ s ∈ (forceEndSession cur j).sessions, s.id = j →
      ¬(s.status = .active ∧ s.deadline < cur.height) := by
  unfold forceEndSession
  split
  · rename_i hlook
    intro s hmem hid hcon
    have hl := lookupId_of_mem_uniq (pairwise_lt_ne hWF.2.2.1) hmem
    rw [hid, hlook] at hl
    simp at hl
  · rename_i s0 hlook
    split
    · rename_i hcond
      split
      · rename_i hnode
        intro s hmem hid hcon
        have hrefs := hWF.2.2.2.2.2.2.1 s0 (lookupId_mem hlook)
        rw [hnode] at hrefs
        simp at hrefs
      · rename_i n hn
        split
        · rename_i e hset
          unfold settle at hset
          split at hset
          · rename_i hlt
            have hle := Nat.min_le_left s0.lockedAmount (s0.bandwidthConsumed * n.price)
            unfold sessionOwed at hlt
            omega
          · simp at hset
        · rename_i st1 hset
          unfold settle at hset
          split at hset
          · simp at hset
          · cases hset
            intro s hmem hid hcon
            rcases mem_updateId hmem with ⟨hold, hne⟩ | ⟨x, hx1, hx2, hx3⟩
            · exact hne hid
            · rw [hx3] at hcon
              simp at hcon
    · rename_i hcond
      intro s hmem hid hcon
      have hl := lookupId_of_mem_uniq (pairwise_lt_ne hWF.2.2.1) hmem
      rw [hid, hlook] at hl
      injection hl with h2
      rw [← h2] at hcon
      exact hcond hcon

theorem forceEndSubscription_clears (cur : State) (j : Nat) (hWF : WF cur) :
    ∀ x ∈ (forceEndSubscription cur j).subscriptions, x.id = j →
      ¬(x.status = .active ∧ x.expiry < cur.height) := by
  unfold forceEndSubscription
  split
  · rename_i hlook
    intro x hmem hid hcon
    have hl := lookupId_of_mem_uniq (pairwise_lt_ne hWF.2.2.2.2.1) hmem
    rw [hid, hlook] at hl
    simp at hl
  · rename_i x0 hlook
    split
    · rename_i hcond
      split
      · rename_i hnode
        intro x hmem hid hcon
        have hrefs := hWF.2.2.2.2.2.2.2 x0 (lookupId_mem hlook)
        rw [hnode] at hrefs
        simp at hrefs
      · rename_i n hn
        split
        · rename_i e hset
          unfold settle at hset
          split at hset
          · rename_i hlt
            have hle := Nat.min_le_left x0.deposit (x0.bandwidthUsed * n.price)
            unfold subscriptionOwed at hlt
            omega
          · simp at hset
        · rename_i st1 hset
          unfold settle at hset
          split at hset
          · simp at hset
          · cases hset
            intro x hmem hid hcon
            rcases mem_updateId hmem with ⟨hold, hne⟩ | ⟨y, hy1, hy2, hy3⟩
            · exact hne hid
            · rw [hy3] at hcon
              simp at hcon
    · rename_i hcond
      intro x hmem hid hcon
      have hl := lookupId_of_mem_uniq (pairwise_lt_ne hWF.2.2.2.2.1) hmem
      rw [hid, hlook] at hl
      injection hl with h2
      rw [← h2] at hcon
      exact hcond hcon

theorem forceEndSession_keeps_clear (cur : State) (j m : Nat)
    (h : ∀ s ∈ cur.sessions, s.id = m → ¬(s.status = .active ∧ s.deadline < cur.height)) :
    ∀ s ∈ (forceEndSession cur j).sessions, s.id = m →
      ¬(s.status = .active ∧ s.deadline < cur.height) := by
  unfold forceEndSession
  split
  · exact h
  · split
    · split
      · exact h
      · split
        · exact h
        · rename_i st1 hset
          unfold settle at hset
          split at hset
          · simp at hset
          · cases hset
            intro s hmem hid hcon
            rcases mem_updateId hmem with ⟨hold, _⟩ | ⟨x, hx1, hx2, hx3⟩
            · exact h s hold hid hcon
            · rw [hx3] at hcon
              simp at hcon
    · exact h

theorem forceEndSubscription_keeps_clear (cur : State) (j m : Nat)
    (h : ∀ x ∈ cur.subscriptions, x.id = m → ¬(x.status = .active ∧ x.expiry < cur.height)) :
    ∀ x ∈ (forceEndSubscription cur j).subscriptions, x.id = m →
      ¬(x.status = .active ∧ x.expiry < cur.height) := by
  unfold forceEndSubscription
  split
  · exact h
  · split
    · split
      · exact h
      · split
        · exact h
        · rename_i st1 hset
          unfold settle at hset
          split at hset
          · simp at hset
          · cases hset
            intro x hmem hid hcon
            rcases mem_updateId hmem with ⟨hold, _⟩ | ⟨y, hy1, hy2, hy3⟩
            · exact h x hold hid hcon
            · rw [hy3] at hcon
              simp at hcon
    · exact h

theorem foldl_forceEndSession_keeps_clear :
    ∀ (l : List Nat) (cur : State) (m : Nat),
      (∀ s ∈ cur.sessions, s.id = m → ¬(s.status = .active ∧ s.deadline < cur.height)) →
      ∀ s ∈ ((l.foldl forceEndSession cur)).sessions, s.id = m →
        ¬(s.status = .active ∧ s.deadline < cur.height)
  | [], _, _, h => h
  | j :: js, cur, m, h => by
    have hheight := (forceEndSession_fields cur j).2.1
    have hh := forceEndSession_keeps_clear cur j m h
    have ih := foldl_forceEndSession_keeps_clear js (forceEndSession cur j) m
      (by rw [hheight]; exact hh)
    intro s hmem hid
    rw [← hheight]
    exact ih s hmem hid

theorem foldl_forceEndSubscription_keeps_clear :
    ∀ (l : List Nat) (cur : State) (m : Nat),
      (∀ x ∈ cur.subscriptions, x.id = m → ¬(x.status = .active ∧ x.expiry < cur.height)) →
      ∀ x ∈ ((l.foldl forceEndSubscription cur)).subscriptions, x.id = m →
        ¬(x.status = .active ∧ x.expiry < cur.height)
  | [], _, _, h => h
  | j :: js, cur, m, h => by
    have hheight := (forceEndSubscription_fields cur j).2.1
    have hh := forceEndSubscription_keeps_clear cur j m h
    have ih := foldl_forceEndSubscription_keeps_clear js (forceEndSubscription cur j) m
      (by rw [hheight]; exact hh)
    intro x hmem hid
    rw [← hheight]
    exact ih x hmem hid

theorem foldl_forceEndSession_clears :
    ∀ (l : List Nat) (cur : State), WF cur →
      ∀ s ∈ ((l.foldl forceEndSession cur)).sessions, s.id ∈ l →
        ¬(s.status = .active ∧ s.deadline < cur.height)
  | [], cur, _ => by
    intro s _ hin
    simp at hin
  | j :: js, cur, hWF => by
    intro s hmem hin
    have hheight := (forceEndSession_fields cur j).2.1
    rcases List.mem_cons.1 hin with hin | hin
    · have hcl := forceEndSession_clears cur j hWF
      have hkept := foldl_forceEndSession_keeps_clear js (forceEndSession cur j) j
        (by rw [hheight]; exact hcl)
      rw [← hheight]
      exact hkept s hmem hin
    · have ih := foldl_forceEndSession_clears js (forceEndSession cur j)
        (WF_forceEndSession cur j hWF)
      rw [← hheight]
      exact ih s hmem hin

theorem foldl_forceEndSubscription_clears :
    ∀ (l : List Nat) (cur : State), WF cur →
      ∀ x ∈ ((l.foldl forceEndSubscription cur)).subscriptions, x.id ∈ l →
        ¬(x.status = .active ∧ x.expiry < cur.height)
  | [], cur, _ => by
    intro x _ hin
    simp at hin
  | j :: js, cur, hWF => by
    intro x hmem hin
    have hheight := (forceEndSubscription_fields cur j).2.1
    rcases List.mem_cons.1 hin with hin | hin
    · have hcl := forceEndSubscription_clears cur j hWF
      have hkept := foldl_forceEndSubscription_keeps_clear js (forceEndSubscription cur j) j
        (by rw [hheight]; exact hcl)
      rw [← hheight]
      exact hkept x hmem hin
    · have ih := foldl_forceEndSubscription_clears js (forceEndSubscription cur j)
        (WF_forceEndSubscription cur j hWF)
      rw [← hheight]
      exact ih x hmem hin

theorem endBlockStep_no_expired_session (st : State) (hWF : WF st) :
    ∀ s ∈ (endBlockStep st).sessions, s.status = .active → st.height ≤ s.deadline := by
  intro s hmem hact
  have hfold : (endBlockStep st).sessions =
      (((sessionSweepIds st).foldl forceEndSession st)).sessions :=
    foldl_forceEndSubscription_sessions_eq _ _
  rw [hfold] at hmem
  have hmap := foldl_forceEndSession_sessions_map_id (sessionSweepIds st) st
  have hidin : s.id ∈ sessionSweepIds st := by
    show s.id ∈ st.sessions.map Session.id
    rw [← hmap]
    exact List.mem_map_of_mem _ hmem
  have hcl := foldl_forceEndSession_clears (sessionSweepIds st) st hWF s hmem hidin
  rw [not_and] at hcl
  have hnb := hcl hact
  omega

theorem endBlockStep_no_expired_subscription (st : State) (hWF : WF st) :
    ∀ x ∈ (endBlockStep st).subscriptions, x.status = .active → st.height ≤ x.expiry := by
  intro x hmem hact
  have hW1 := WF_foldl_forceEndSession (sessionSweepIds st) st hWF
  have hh1 := foldl_forceEndSession_height (sessionSweepIds st) st
  have hmem1 : x ∈ ((subscriptionSweepIds ((sessionSweepIds st).foldl forceEndSession st)).foldl
      forceEndSubscription ((sessionSweepIds st).foldl forceEndSession st)).subscriptions := hmem
  have hmap := foldl_forceEndSubscription_subscriptions_map_id
    (subscriptionSweepIds ((sessionSweepIds st).foldl forceEndSession st))
    ((sessionSweepIds st).foldl forceEndSession st)
  have hidin : x.id ∈ subscriptionSweepIds ((sessionSweepIds st).foldl forceEndSession st) := by
    show x.id ∈ (((sessionSweepIds st).foldl forceEndSession st)).subscriptions.map Subscription.id
    rw [← hmap]
    exact List.mem_map_of_mem _ hmem1
  have hcl := foldl_forceEndSubscription_clears
    (subscriptionSweepIds ((sessionSweepIds st).foldl forceEndSession st))
    ((sessionSweepIds st).foldl forceEndSession st) hW1 x hmem1 hidin
  rw [not_and] at hcl
  have hnb := hcl hact
  rw [hh1] at hnb
  omega

/-- C1: For every reachable state of the module — any ordered sequence of
lifecycle operations and end-block sweeps applied from genesis — the
escrow account's balance equals the sum of LockedAmount over Active
sessions plus the sum of Deposit over Active subscriptions; since every
prefix of a run (in particular every prefix ending in an end-block sweep)
is itself a run, the equality holds at every block boundary. -/
theorem C1_escrow_invariant_reachable (bal : List (Nat × Nat)) (ms mb : Nat) (ops : List Op) :
    escrowInvariant (run (genesisState bal ms mb) ops) :=
  (WFInv_run _ ops (WFInv_genesisState bal ms mb)).2

/-- C2: EndSession settles with amountOwed = min(LockedAmount,
BandwidthConsumed * price) — the definition `sessionOwed` used by
`endSession` — so amountOwed ≤ LockedAmount, the refund
LockedAmount - amountOwed satisfies amountOwed + refund = LockedAmount
exactly, and no EndSession call from any state can reach the
InvariantViolation branch inside the settle operation. -/
theorem C2_endSession_settlement :
    (∀ st i c, endSession st i c ≠ .error .invariantViolation) ∧
    (∀ s n, sessionOwed s n ≤ s.lockedAmount ∧
      sessionOwed s n + (s.lockedAmount - sessionOwed s n) = s.lockedAmount) := by
  constructor
  · intro st i c h
    unfold endSession at h
    split at h
    · simp at h
    · rename_i s hs
      split at h
      · simp at h
      · split at h
        · simp at h
        · rename_i n hn
          split at h
          · simp at h
          · split at h
            · rename_i e hset
              unfold settle at hset
              split at hset
              · rename_i hlt
                have hle := Nat.min_le_left s.lockedAmount (s.bandwidthConsumed * n.price)
                unfold sessionOwed at hlt
                omega
              · simp at hset
            · simp at h
  · intro s n
    have hle := Nat.min_le_left s.lockedAmount (s.bandwidthConsumed * n.price)
    unfold sessionOwed
    omega

/-- Witness for C2 at a concrete state, session and node. -/
theorem C2_endSession_settlement_witness :
    endSession (genesisState [(1, 1000)] 2 2) 0 1 ≠ .error .invariantViolation ∧
    sessionOwed ⟨0, 0, 1, 100, 3, .active, 2⟩ ⟨0, 2, 10, .active⟩ ≤ 100 :=
  ⟨C2_endSession_settlement.1 (genesisState [(1, 1000)] 2 2) 0 1,
   (C2_endSession_settlement.2 ⟨0, 0, 1, 100, 3, .active, 2⟩ ⟨0, 2, 10, .active⟩).1⟩

/-- C3: Determinism — replaying an identical ordered sequence of
operations from the same starting state on two independent instances
yields identical resulting state: the same escrow balance and the same
node, session and subscription records. In this embedding every
operation is a pure function of state and operation, so equal starting
states give equal runs. -/
theorem C3_run_deterministic (st1 st2 : State) (ops : List Op) (h : st1 = st2) :
    run st1 ops = run st2 ops ∧
      (run st1 ops).escrowBalance = (run st2 ops).escrowBalance ∧
      (run st1 ops).nodes = (run st2 ops).nodes ∧
      (run st1 ops).sessions = (run st2 ops).sessions ∧
      (run st1 ops).subscriptions = (run st2 ops).subscriptions ∧
      (run st1 ops).balances = (run st2 ops).balances := by
  subst h
  exact ⟨rfl, rfl, rfl, rfl, rfl, rfl⟩

/-- Witness for C3 on a concrete sequence from genesis. -/
theorem C3_run_deterministic_witness :
    run (genesisState [(1, 1000)] 2 2) [.registerNode 2 10, .initSession 1 0 100, .endBlock] =
      run (genesisState [(1, 1000)] 2 2) [.registerNode 2 10, .initSession 1 0 100, .endBlock] :=
  (C3_run_deterministic (genesisState [(1, 1000)] 2 2) (genesisState [(1, 1000)] 2 2)
    [.registerNode 2 10, .initSession 1 0 100, .endBlock] rfl).1

/-- C4: Atomicity — when an operation returns a non-fatal typed error,
the state after the invocation (stores and all balances) equals the
state before it, and running the failed operation followed by a
continuation equals running the continuation alone: no partial write or
partial fund movement survives the failure. -/
theorem C4_atomic_on_error (st : State) (op : Op) (e : Err) (rest : List Op)
    (h : step st op = .error e) (_hnf : e ≠ .invariantViolation) :
    applyOp st op = st ∧
      (applyOp st op).balances = st.balances ∧
      (applyOp st op).escrowBalance = st.escrowBalance ∧
      run st (op :: rest) = run st rest := by
  have happ : applyOp st op = st := by
    unfold applyOp
    rw [h]
  refine ⟨happ, by rw [happ], by rw [happ], ?_⟩
  show run (applyOp st op) rest = run st rest
  rw [happ]

/-- Witness for C4: registering a node with non-positive price fails with
InvalidParameter and leaves genesis unchanged. -/
theorem C4_atomic_on_error_witness :
    applyOp (genesisState [(1, 1000)] 2 2) (.registerNode 2 0) = genesisState [(1, 1000)] 2 2 :=
  (C4_atomic_on_error (genesisState [(1, 1000)] 2 2) (.registerNode 2 0) .invalidParameter []
    rfl (by decide)).1

/-- C5: Monotonicity — an UpdateSessionInfo (or subscription usage
update) reporting a bandwidth value strictly below the recorded one
fails with InvalidParameter and leaves the state unchanged, and over any
run the stored BandwidthConsumed / BandwidthUsed of a session or
subscription never decreases. -/
theorem C5_bandwidth_monotonic :
    (∀ st i b s, lookupId Session.id st.sessions i = some s → s.status = .active →
      b < s.bandwidthConsumed →
      step st (.updateSessionInfo i b) = .error .invalidParameter ∧
        applyOp st (.updateSessionInfo i b) = st) ∧
    (∀ st i b x, lookupId Subscription.id st.subscriptions i = some x → x.status = .active →
      b < x.bandwidthUsed →
      step st (.updateSubscriptionInfo i b) = .error .invalidParameter ∧
        applyOp st (.updateSubscriptionInfo i b) = st) ∧
    (∀ st ops i s t, lookupId Session.id st.sessions i = some s →
      lookupId Session.id (run st ops).sessions i = some t →
      s.bandwidthConsumed ≤ t.bandwidthConsumed) ∧
    (∀ st ops i x t, lookupId Subscription.id st.subscriptions i = some x →
      lookupId Subscription.id (run st ops).subscriptions i = some t →
      x.bandwidthUsed ≤ t.bandwidthUsed) := by
  refine ⟨?_, ?_, ?_, ?_⟩
  · intro st i b s hs hact hlt
    have hf : updateSessionInfo st i b = .error .invalidParameter :=
      updateSessionInfo_decrease_fails hs hact hlt
    refine ⟨hf, ?_⟩
    unfold applyOp
    rw [show step st (.updateSessionInfo i b) = .error .invalidParameter from hf]
  · intro st i b x hx hact hlt
    have hf : updateSubscriptionInfo st i b = .error .invalidParameter :=
      updateSubscriptionInfo_decrease_fails hx hact hlt
    refine ⟨hf, ?_⟩
    unfold applyOp
    rw [show step st (.updateSubscriptionInfo i b) = .error .invalidParameter from hf]
  · intro st ops i s t hs ht
    obtain ⟨t2, ht2, hle, _⟩ := run_session_lookup st ops hs
    rw [ht] at ht2
    injection ht2 with h2
    rw [← h2] at hle
    exact hle
  · intro st ops i x t hx ht
    obtain ⟨t2, ht2, hle, _⟩ := run_subscription_lookup st ops hx
    rw [ht] at ht2
    injection ht2 with h2
    rw [← h2] at hle
    exact hle

/-- Witness for C5: with a session whose recorded bandwidth is 5, a
report of 3 fails with InvalidParameter. -/
theorem C5_bandwidth_monotonic_witness :
    step (run (genesisState [(1, 1000)] 2 2)
        [.registerNode 2 10, .initSession 1 0 100, .updateSessionInfo 0 5])
      (.updateSessionInfo 0 3) = .error .invalidParameter :=
  (C5_bandwidth_monotonic.1 (run (genesisState [(1, 1000)] 2 2)
      [.registerNode 2 10, .initSession 1 0 100, .updateSessionInfo 0 5])
    0 3 ⟨0, 0, 1, 100, 5, .active, 2⟩ (by decide) (by decide) (by decide)).1

/-- C6: Ended is absorbing — after a successful EndSession the second
EndSession on the same ID fails with PreconditionFailed and changes
nothing (applying it returns the state unchanged, so balances and the
record are untouched), and an Ended session or subscription record is
never modified by any subsequent sequence of operations. -/
theorem C6_ended_absorbing :
    (∀ st st1 i c c', endSession st i c = .ok st1 →
      endSession st1 i c' = .error .preconditionFailed ∧
        applyOp st1 (.endSession i c') = st1) ∧
    (∀ st ops i s, lookupId Session.id st.sessions i = some s → s.status = .ended →
      lookupId Session.id (run st ops).sessions i = some s) ∧
    (∀ st ops i x, lookupId Subscription.id st.subscriptions i = some x → x.status = .ended →
      lookupId Subscription.id (run st ops).subscriptions i = some x) := by
  refine ⟨?_, ?_, ?_⟩
  · intro st st1 i c c' h
    obtain ⟨s, hs, hact, hs1⟩ := endSession_ok_inversion h
    have hfail : endSession st1 i c' = .error .preconditionFailed :=
      endSession_ended_fails hs1 rfl
    refine ⟨hfail, ?_⟩
    unfold applyOp
    rw [show step st1 (.endSession i c') = .error .preconditionFailed from hfail]
  · intro st ops i s hs hend
    obtain ⟨t, ht, _, heq⟩ := run_session_lookup st ops hs
    rw [heq hend] at ht
    exact ht
  · intro st ops i x hx hend
    obtain ⟨t, ht, _, heq⟩ := run_subscription_lookup st ops hx
    rw [heq hend] at ht
    exact ht

/-- Witness for C6: ending session 0 once succeeds; the theorem then
gives PreconditionFailed for the second call. -/
theorem C6_ended_absorbing_witness :
    endSession (run (genesisState [(1, 1000)] 2 2)
        [.registerNode 2 10, .initSession 1 0 100, .endSession 0 1]) 0 1 =
      .error .preconditionFailed :=
  (C6_ended_absorbing.1 (run (genesisState [(1, 1000)] 2 2)
      [.registerNode 2 10, .initSession 1 0 100])
    (run (genesisState [(1, 1000)] 2 2)
      [.registerNode 2 10, .initSession 1 0 100, .endSession 0 1])
    0 1 1 rfl).1

/-- C7: Deregistration guard — DeregisterNode fails with
PreconditionFailed while any Active session or Active subscription still
references the node; with no active references it succeeds, retains the
record with Status set to Inactive, leaves stores and balances otherwise
unchanged, and every subsequent InitSession against that node fails with
NotFound. -/
theorem C7_deregistration_guard (st : State) (i o : Nat) (n : Node)
    (hn : lookupId Node.id st.nodes i = some n) (howner : o = n.owner) :
    ((∃ s ∈ st.sessions, s.status = .active ∧ s.nodeID = i) ∨
        (∃ b ∈ st.subscriptions, b.status = .active ∧ b.nodeID = i) →
      deregisterNode st i o = .error .preconditionFailed) ∧
    (hasActiveRef st i = false →
      ∃ st', deregisterNode st i o = .ok st' ∧
        lookupId Node.id st'.nodes i = some { n with status := NodeStatus.inactive } ∧
        st'.sessions = st.sessions ∧ st'.subscriptions = st.subscriptions ∧
        st'.balances = st.balances ∧ st'.escrowBalance = st.escrowBalance ∧
        ∀ sub amt, initSession st' sub i amt = .error .notFound) := by
  constructor
  · intro href
    exact deregisterNode_active_ref_fails hn howner ((hasActiveRef_iff st i).2 href)
  · intro href
    obtain ⟨hok, hlook⟩ := deregisterNode_no_ref_ok hn howner href
    refine ⟨_, hok, hlook, rfl, rfl, rfl, rfl, ?_⟩
    intro sub amt
    exact initSession_inactive_fails hlook rfl sub amt

/-- Witness for C7: with an active session on node 0, deregistration
fails with PreconditionFailed. -/
theorem C7_deregistration_guard_witness :
    deregisterNode (run (genesisState [(1, 1000)] 2 2)
        [.registerNode 2 10, .initSession 1 0 100]) 0 2 = .error .preconditionFailed :=
  (C7_deregistration_guard (run (genesisState [(1, 1000)] 2 2)
      [.registerNode 2 10, .initSession 1 0 100]) 0 2 ⟨0, 2, 10, .active⟩
    (by decide) (by decide)).1 (by decide)

/-- C8: The end-block sweep visits sessions and subscriptions in
ascending-ID order (the sweep-order lists are strictly increasing), and
after the sweep no Active item's Deadline/Expiry lies before the sweep
height — every expired item is force-ended in the first block whose
height passes its deadline, with the normal settlement formula. In the
concrete scenario (price 10, LockedAmount 100, no UpdateSessionInfo,
Deadline 2), the session is still Active after the block at height 2 and
is force-ended exactly in the block at height 3 with amountOwed 0 and a
full refund of 100 to the subscriber. -/
theorem C8_endblock_sweep (st : State) (hWF : WF st) :
    List.Pairwise (· < ·) (sessionSweepIds st) ∧
    List.Pairwise (· < ·) (subscriptionSweepIds st) ∧
    (∀ s ∈ (endBlockStep st).sessions, s.status = .active → st.height ≤ s.deadline) ∧
    (∀ x ∈ (endBlockStep st).subscriptions, x.status = .active → st.height ≤ x.expiry) ∧
    lookupId Session.id (run (genesisState [(1, 1000)] 2 2)
        [.registerNode 2 10, .initSession 1 0 100, .endBlock, .endBlock, .endBlock]).sessions 0 =
      some ⟨0, 0, 1, 100, 0, .active, 2⟩ ∧
    lookupId Session.id (run (genesisState [(1, 1000)] 2 2)
        [.registerNode 2 10, .initSession 1 0 100, .endBlock, .endBlock, .endBlock,
          .endBlock]).sessions 0 = some ⟨0, 0, 1, 100, 0, .ended, 2⟩ ∧
    getBal (run (genesisState [(1, 1000)] 2 2)
        [.registerNode 2 10, .initSession 1 0 100, .endBlock, .endBlock, .endBlock,
          .endBlock]).balances 1 = 1000 ∧
    getBal (run (genesisState [(1, 1000)] 2 2)
        [.registerNode 2 10, .initSession 1 0 100, .endBlock, .endBlock, .endBlock,
          .endBlock]).balances 2 = 0 ∧
    (run (genesisState [(1, 1000)] 2 2)
        [.registerNode 2 10, .initSession 1 0 100, .endBlock, .endBlock, .endBlock,
          .endBlock]).escrowBalance = 0 :=
  ⟨hWF.2.2.1, hWF.2.2.2.2.1, endBlockStep_no_expired_session st hWF,
    endBlockStep_no_expired_subscription st hWF,
    by decide, by decide, by decide, by decide, by decide⟩

/-- Witness for C8 at a concrete well-formed state with an expired
session: the sweep order over its session store is strictly ascending. -/
theorem C8_endblock_sweep_witness :
    List.Pairwise (· < ·) (sessionSweepIds (run (genesisState [(1, 1000)] 2 2)
      [.registerNode 2 10, .initSession 1 0 100, .endBlock, .endBlock, .endBlock])) :=
  (C8_endblock_sweep (run (genesisState [(1, 1000)] 2 2)
      [.registerNode 2 10, .initSession 1 0 100, .endBlock, .endBlock, .endBlock])
    (by decide)).1

/-- C9: StartSubscription derives BandwidthQuota = Deposit / price by
truncating integer division, and the subscription settlement owes
min(Deposit, BandwidthUsed * price) ≤ Deposit. In the concrete scenario
Deposit 50 and price 10 give BandwidthQuota 5, a reported usage of 8
units is recorded, and EndSubscription settles with amountOwed 50 (not
80) paid to the node owner and refund 0 to the subscriber. -/
theorem C9_quota_and_cap (st st' : State) (sub nid dep : Nat) (n : Node)
    (hWF : WF st) (hn : lookupId Node.id st.nodes nid = some n)
    (h : startSubscription st sub nid dep = .ok st') :
    lookupId Subscription.id st'.subscriptions st.nextSubscriptionID =
      some ⟨st.nextSubscriptionID, nid, sub, dep, dep / n.price, 0, .active,
        st.height + st.maxSubscriptionDuration⟩ ∧
    (∀ x m, subscriptionOwed x m ≤ x.deposit) ∧
    lookupId Subscription.id (run (genesisState [(1, 1000)] 2 2)
        [.registerNode 2 10, .startSubscription 1 0 50]).subscriptions 0 =
      some ⟨0, 0, 1, 50, 5, 0, .active, 2⟩ ∧
    lookupId Subscription.id (run (genesisState [(1, 1000)] 2 2)
        [.registerNode 2 10, .startSubscription 1 0 50, .updateSubscriptionInfo 0 8,
          .endSubscription 0 1]).subscriptions 0 = some ⟨0, 0, 1, 50, 5, 8, .ended, 2⟩ ∧
    getBal (run (genesisState [(1, 1000)] 2 2)
        [.registerNode 2 10, .startSubscription 1 0 50, .updateSubscriptionInfo 0 8,
          .endSubscription 0 1]).balances 2 = 50 ∧
    getBal (run (genesisState [(1, 1000)] 2 2)
        [.registerNode 2 10, .startSubscription 1 0 50, .updateSubscriptionInfo 0 8,
          .endSubscription 0 1]).balances 1 = 950 ∧
    (run (genesisState [(1, 1000)] 2 2)
        [.registerNode 2 10, .startSubscription 1 0 50, .updateSubscriptionInfo 0 8,
          .endSubscription 0 1]).escrowBalance = 0 := by
  refine ⟨?_, fun x m => Nat.min_le_left _ _, by decide, by decide, by decide, by decide,
    by decide⟩
  obtain ⟨n2, hn2, hact, hdep, hsubs⟩ := startSubscription_ok_inversion h
  rw [hn] at hn2
  injection hn2 with h2
  rw [← h2] at hsubs
  rw [hsubs]
  exact lookupId_append_self (k := Subscription.id) _
    (fun x hx => Nat.ne_of_lt (hWF.2.2.2.2.2.1 x hx))

/-- Witness for C9 at the concrete genesis run that creates subscription
0 with quota 5. -/
theorem C9_quota_and_cap_witness :
    lookupId Subscription.id (run (genesisState [(1, 1000)] 2 2)
        [.registerNode 2 10, .startSubscription 1 0 50]).subscriptions 0 =
      some ⟨0, 0, 1, 50, 5, 0, .active, 2⟩ :=
  (C9_quota_and_cap (run (genesisState [(1, 1000)] 2 2) [.registerNode 2 10])
    (run (genesisState [(1, 1000)] 2 2) [.registerNode 2 10, .startSubscription 1 0 50])
    1 0 50 ⟨0, 2, 10, .active⟩ (by decide) (by decide) rfl).1

/-- C10: The REST init-session handler writes a generated-transaction
response only when every validation step succeeds — request decoding,
sanitize + base-request validation, bech32 parsing of the from address,
coin parsing of the amount, and the constructed message's ValidateBasic;
each of the bech32, coin and ValidateBasic failures instead writes an
HTTP 400 error response and generates no transaction. -/
theorem C10_initSessionHandler (env : RestEnv) :
    (∀ b m, initSessionHandlerFunc env = .generateTx b m →
      ∃ req a c, env.readRESTReq = some req ∧
        env.validateBasic (env.sanitize req.baseReq) = true ∧
        env.accAddressFromBech32 (env.sanitize req.baseReq).fromField = .ok a ∧
        env.parseCoin req.amountToLock = .ok c ∧
        env.msgValidateBasic ⟨a, NewID req.nodeID, c⟩ = none ∧
        b = env.sanitize req.baseReq ∧ m = ⟨a, NewID req.nodeID, c⟩) ∧
    (∀ req e, env.readRESTReq = some req →
      env.validateBasic (env.sanitize req.baseReq) = true →
      env.accAddressFromBech32 (env.sanitize req.baseReq).fromField = .error e →
      initSessionHandlerFunc env = .errorResponse 400 e) ∧
    (∀ req a e, env.readRESTReq = some req →
      env.validateBasic (env.sanitize req.baseReq) = true →
      env.accAddressFromBech32 (env.sanitize req.baseReq).fromField = .ok a →
      env.parseCoin req.amountToLock = .error e →
      initSessionHandlerFunc env = .errorResponse 400 e) ∧
    (∀ req a c e, env.readRESTReq = some req →
      env.validateBasic (env.sanitize req.baseReq) = true →
      env.accAddressFromBech32 (env.sanitize req.baseReq).fromField = .ok a →
      env.parseCoin req.amountToLock = .ok c →
      env.msgValidateBasic ⟨a, NewID req.nodeID, c⟩ = some e →
      initSessionHandlerFunc env = .errorResponse 400 e) := by
  refine ⟨?_, ?_, ?_, ?_⟩
  · intro b m h
    unfold initSessionHandlerFunc at h
    split at h
    · simp at h
    · rename_i req0 hread
      split at h
      · simp at h
      · rename_i hval
        have hval2 : env.validateBasic (env.sanitize req0.baseReq) = true := by
          cases hbv : env.validateBasic (env.sanitize req0.baseReq)
          · exact absurd hbv hval
          · rfl
        split at h
        · simp at h
        · rename_i a ha
          split at h
          · simp at h
          · rename_i c hc
            split at h
            · simp at h
            · rename_i hmsg
              injection h with hb hm
              exact ⟨req0, a, c, hread, hval2, ha, hc, hmsg, hb.symm, hm.symm⟩
  · intro req e hread hval ha
    unfold initSessionHandlerFunc
    simp only [hread]
    rw [if_neg (by rw [hval]; simp)]
    simp only [ha]
  · intro req a e hread hval ha hc
    unfold initSessionHandlerFunc
    simp only [hread]
    rw [if_neg (by rw [hval]; simp)]
    simp only [ha, hc]
  · intro req a c e hread hval ha hc hmsg
    unfold initSessionHandlerFunc
    simp only [hread]
    rw [if_neg (by rw [hval]; simp)]
    simp only [ha, hc, hmsg]

/-- Witness for C10: a request whose amount fails to parse as a coin
yields an HTTP 400 error response. -/
theorem C10_initSessionHandler_witness :
    initSessionHandlerFunc
      ⟨some ⟨⟨("addr1")⟩, ("ten"), ("node-1")⟩, fun b => b, fun _ => true,
        fun s => .ok ⟨s⟩, fun _ => .error ("invalid coin"), fun _ => none⟩ =
      .errorResponse 400 ("invalid coin") :=
  (C10_initSessionHandler _).2.2.1 ⟨⟨("addr1")⟩, ("ten"), ("node-1")⟩
    ⟨("addr1")⟩ ("invalid coin") rfl rfl rfl rfl

end Hub
